import Mathlib

/-!
Verification of an educational C-like compiler pipeline (lexer, parser, two
semantic analyzers, TAC generator, optimizer, code generator) against its
natural-language specification.

All definitions are shallow embeddings of the TypeScript sources.  JavaScript
`Map`/`Set` values are modelled as association lists observed only through
`get`/`has`/`set`; JavaScript numbers are modelled as integers, which is
faithful on the integer-valued operand strings this pipeline manipulates
(caveats are stated at the individual definitions); the ambient clock
(`Date.now()`) is modelled as an explicit stream threaded through the
analyzer state; `null`/`undefined` string fields are modelled as
`Option String`.
-/

namespace EduCompiler

/-- `s.startsWith(c)` for a one-character prefix, stated on the character
list so that it evaluates inside the kernel. -/
def strHeadIs (c : Char) (s : String) : Bool :=
  match s.data with
  | d :: _ => d = c
  | [] => false

/-- The string is non-empty and begins with an identifier character, as
every function name produced by this pipeline does. -/
def identHeadChar (s : String) : Bool :=
  match s.data with
  | c :: _ => c.isAlphanum || c = '_'
  | [] => false

/-- JS `!isNaN(Number(s))` restricted to the operand strings this pipeline
produces: the empty string (JS coerces it to 0) and decimal integer numerals
with an optional leading minus sign.  Fractional, exponent and hexadecimal
forms are not modelled. -/
def jsNumericString (s : String) : Bool :=
  match s.data with
  | [] => true
  | c :: rest =>
    if c = '-' then rest ≠ [] && rest.all Char.isDigit
    else (c :: rest).all Char.isDigit

/-- Decimal value of a digit string. -/
def decValue (l : List Char) : Nat :=
  l.foldl (fun n c => n * 10 + (c.toNat - '0'.toNat)) 0

/-- JS `Number(s)` on the same restricted class of strings (`""` is 0). -/
def jsToInt (s : String) : Int :=
  match s.data with
  | [] => 0
  | '-' :: rest => -(decValue rest : Int)
  | l => (decValue l : Int)

/-- JS truthiness of a nullable string: `null`/`undefined` and `""` are falsy. -/
def jsTruthy : Option String → Bool
  | none => false
  | some s => s ≠ ""

/-- JS `Number(x)` where `x` may be `null` (which coerces to 0). -/
def jsToIntOpt : Option String → Int
  | none => 0
  | some s => jsToInt s

/-- JS template-literal interpolation of a nullable string (`null` prints as
the four characters `null`). -/
def jsShow : Option String → String
  | none => "null"
  | some s => s

/-- JS `x || y` on nullable strings (the empty string is falsy). -/
def jsOr (x y : Option String) : Option String :=
  match x with
  | none => y
  | some s => if s = "" then y else some s

/-- JS `Map.get`: an association list read through its newest binding. -/
def mapGet {κ α : Type} [DecidableEq κ] (m : List (κ × α)) (k : κ) : Option α :=
  (m.find? (fun e => decide (e.1 = k))).map (fun e => e.2)

/-- JS `Map.set`, observed only through `mapGet`: prepending the new binding
shadows any older one, which matches overwriting. -/
def mapSet {κ α : Type} (m : List (κ × α)) (k : κ) (v : α) : List (κ × α) :=
  (k, v) :: m

/-- JS `Map.set`/object-field update in insertion order: the first existing
binding is updated in place, otherwise the binding is appended.  Used where
the map's iteration order is observable. -/
def mapSetR {κ α : Type} [DecidableEq κ] :
    List (κ × α) → κ → α → List (κ × α)
  | [], k, v => [(k, v)]
  | e :: rest, k, v =>
    if e.1 = k then (k, v) :: rest else e :: mapSetR rest k v

/-- `TACInstruction` from `intermediateCodeGenerator.ts`. -/
structure TACInstruction where
  op : String
  arg1 : Option String
  arg2 : Option String
  result : Option String
  label : Option String := none
deriving Repr, DecidableEq

/-- `TACFunction` from `intermediateCodeGenerator.ts`. -/
structure TACFunction where
  name : String
  params : List String
  instructions : List TACInstruction
  tempCount : Nat
deriving Repr, DecidableEq

/-- One lexical token (shape shared by the lexer and the parser). -/
structure Token where
  type : String
  value : String
deriving Repr, DecidableEq

/-- The AST node objects built by the recursive-descent parser.  The parser
mixes two further value shapes into node positions, embedded here as
constructors: `errorNode` for the ad hoc `\x7b error: ... \x7d` objects, and
`Option Node` for JS `null` in nullable positions.  The unary expression
constructors `preExpr`/`postExpr` carry the `PrefixExpression` and
`PostfixExpression` type tags; neither carries a `prefix` field, exactly as
the parser builds them.  `preDirective` is the `PreprocessorDirective`
node and `forInit` the `initialization` field of a for statement. -/
inductive Node where
  | program (body : List Node)
  | preDirective (value : String)
  | functionDeclaration (returnType : String) (name : String)
      (parameters : List Node) (body : Node)
  | parameter (paramType : String) (paramName : String)
  | compoundStatement (body : List Node)
  | declarationStatement (varType : String) (vars : List Node)
  | variableDeclarator (name : String) (declInit : Option Node)
  | expressionStatement (expression : Option Node)
  | returnStatement (expression : Option Node)
  | ifStatement (condition : Option Node) (thenS : Option Node) (elseS : Option Node)
  | forStatement (forInit : Option Node) (condition : Option Node)
      (increment : Option Node) (body : Option Node)
  | assignmentExpression (operator : String) (left : Option Node) (right : Option Node)
  | binaryExpression (operator : String) (left : Option Node) (right : Option Node)
  | preExpr (operator : String) (argument : Option Node)
  | postExpr (operator : String) (argument : Option Node)
  | identifier (name : String)
  | literal (value : String)
  | functionCall (name : String) (arguments : List Node)
  | errorNode (message : String)
deriving Repr

/-- JS `node.name`: the constructors whose objects carry a `name` field;
reading it on any other node yields `undefined`. -/
def jsNameAttr : Node → Option String
  | .identifier n => some n
  | .functionCall n _ => some n
  | .functionDeclaration _ n _ _ => some n
  | .variableDeclarator n _ => some n
  | _ => none

/-- JS `expr.left.name` on a nullable node (reading `.name` on `null` would
throw in JS; the pipeline only reaches this on non-null nodes). -/
def jsNameAttrOpt : Option Node → Option String
  | some n => jsNameAttr n
  | none => none

namespace Opt

/-! Embedding of the four passes of `CodeOptimizer` (`codeOptimizer.ts`). -/

/-! JS numbers for the folding pass.  `Number(arg)` and the `+ - * / %`
arithmetic are modelled exactly over the rationals extended with the JS
special values: every numeral string (decimal with fraction and exponent,
hexadecimal, octal, binary, `Infinity`, signs, surrounding ASCII
whitespace) parses to its exact mathematical value, finite arithmetic is
exact, and NaN, the infinities and division by zero follow the JS rules.
JS itself computes in binary64, which agrees with this model whenever the
operands and the result are exactly representable — in particular on all
integers up to `2^53` and on short dyadic decimals such as `2.5`; the
extra binary64 rounding on other instances (e.g. `0.1 + 0.2`) is not
modelled, and `jsNumToString` prints a value outside the
terminating-decimal fragment as an exact fraction where JS would print a
rounded positional numeral. -/

/-- The ASCII whitespace `Number()` trims. -/
def jsWhite (c : Char) : Bool :=
  c = ' ' || c = '\t' || c = '\n' || c = '\r' || c = '\x0b' || c = '\x0c'

/-- A JS number: an exact rational (numerator over a positive
denominator), or one of the three special values. -/
inductive JSNum where
  | num (n : Int) (d : Nat)
  | inf
  | ninf
  | nan
deriving Repr

/-- Value of a hexadecimal digit (dead value 17 on anything else, behind
the digit tests). -/
def hexVal (c : Char) : Nat :=
  if '0' ≤ c ∧ c ≤ '9' then c.toNat - '0'.toNat
  else if 'a' ≤ c ∧ c ≤ 'f' then 10 + c.toNat - 'a'.toNat
  else if 'A' ≤ c ∧ c ≤ 'F' then 10 + c.toNat - 'A'.toNat
  else 17

/-- `[0-9a-fA-F]`. -/
def isHex (c : Char) : Bool :=
  ('0' ≤ c && c ≤ '9') || ('a' ≤ c && c ≤ 'f') || ('A' ≤ c && c ≤ 'F')

/-- `[0-7]`. -/
def isOct (c : Char) : Bool := '0' ≤ c && c ≤ '7'

/-- `[01]`. -/
def isBin (c : Char) : Bool := c = '0' || c = '1'

/-- Value of a digit list in the given base. -/
def baseVal (b : Nat) (l : List Char) : Nat :=
  l.foldl (fun n c => n * b + hexVal c) 0

/-- The optional exponent part `[eE][+-]?digits` closing a decimal form;
`none` refuses the whole literal (NaN). -/
def expPart : List Char → Option Int
  | [] => some 0
  | e :: r =>
    if e = 'e' ∨ e = 'E' then
      match r with
      | '+' :: ds =>
        if ds ≠ [] ∧ ds.all Char.isDigit then some (decValue ds) else none
      | '-' :: ds =>
        if ds ≠ [] ∧ ds.all Char.isDigit then some (-(decValue ds : Int))
        else none
      | ds =>
        if ds ≠ [] ∧ ds.all Char.isDigit then some (decValue ds) else none
    else none

/-- The exact rational `± m · 10^e`. -/
def scaled (neg : Bool) (m : Nat) (e : Int) : JSNum :=
  let n : Int := if neg then -(m : Int) else m
  if e ≥ 0 then .num (n * ((10 ^ e.toNat : Nat) : Int)) 1
  else .num n (10 ^ (-e).toNat)

/-- `StrUnsignedDecimalLiteral`: `Infinity`, `digits[.digits][exp]`,
`.digits[exp]` or `digits exp`. -/
def unsignedDec (neg : Bool) (l : List Char) : Option JSNum :=
  if l = "Infinity".data then some (if neg then .ninf else .inf)
  else
    let d1 := l.takeWhile Char.isDigit
    let r1 := l.dropWhile Char.isDigit
    match r1 with
    | '.' :: r2 =>
      let d2 := r2.takeWhile Char.isDigit
      let r3 := r2.dropWhile Char.isDigit
      if d1 = [] ∧ d2 = [] then none
      else
        match expPart r3 with
        | some e => some (scaled neg (decValue (d1 ++ d2)) (e - d2.length))
        | none => none
    | _ =>
      if d1 = [] then none
      else
        match expPart r1 with
        | some e => some (scaled neg (decValue d1) e)
        | none => none

/-- `StrNumericLiteral` after trimming: the empty string is 0, the
`0x`/`0o`/`0b` forms are unsigned integers, anything else an optionally
signed decimal; `none` is NaN. -/
def jsNumberLit : List Char → Option JSNum
  | [] => some (.num 0 1)
  | '0' :: 'x' :: r =>
    if r ≠ [] ∧ r.all isHex then some (.num (baseVal 16 r) 1) else none
  | '0' :: 'X' :: r =>
    if r ≠ [] ∧ r.all isHex then some (.num (baseVal 16 r) 1) else none
  | '0' :: 'o' :: r =>
    if r ≠ [] ∧ r.all isOct then some (.num (baseVal 8 r) 1) else none
  | '0' :: 'O' :: r =>
    if r ≠ [] ∧ r.all isOct then some (.num (baseVal 8 r) 1) else none
  | '0' :: 'b' :: r =>
    if r ≠ [] ∧ r.all isBin then some (.num (baseVal 2 r) 1) else none
  | '0' :: 'B' :: r =>
    if r ≠ [] ∧ r.all isBin then some (.num (baseVal 2 r) 1) else none
  | '+' :: r => unsignedDec false r
  | '-' :: r => unsignedDec true r
  | l => unsignedDec false l

/-- `Number(x)`: `null` is 0, a string is trimmed and parsed, an
unparsable string is NaN. -/
def jsNumber : Option String → JSNum
  | none => .num 0 1
  | some s =>
    match jsNumberLit
        (((s.data.dropWhile jsWhite).reverse.dropWhile jsWhite).reverse) with
    | some v => v
    | none => .nan

/-- `!isNaN(Number(x))`, the folding pass's numeral test. -/
def jsNotNaN (x : Option String) : Bool :=
  match jsNumber x with
  | .nan => false
  | _ => true

/-- JS `+` on numbers. -/
def jsAdd : JSNum → JSNum → JSNum
  | .nan, _ => .nan
  | _, .nan => .nan
  | .inf, .ninf => .nan
  | .ninf, .inf => .nan
  | .inf, _ => .inf
  | _, .inf => .inf
  | .ninf, _ => .ninf
  | _, .ninf => .ninf
  | .num n1 d1, .num n2 d2 => .num (n1 * d2 + n2 * d1) (d1 * d2)

/-- JS `-` on numbers. -/
def jsSub : JSNum → JSNum → JSNum
  | .nan, _ => .nan
  | _, .nan => .nan
  | .inf, .inf => .nan
  | .ninf, .ninf => .nan
  | .inf, _ => .inf
  | _, .ninf => .inf
  | .ninf, _ => .ninf
  | _, .inf => .ninf
  | .num n1 d1, .num n2 d2 => .num (n1 * d2 - n2 * d1) (d1 * d2)

/-- JS `*` on numbers (an infinity times zero is NaN). -/
def jsMul : JSNum → JSNum → JSNum
  | .nan, _ => .nan
  | _, .nan => .nan
  | .inf, .inf => .inf
  | .inf, .ninf => .ninf
  | .ninf, .inf => .ninf
  | .ninf, .ninf => .inf
  | .inf, .num n _ => if n = 0 then .nan else if n > 0 then .inf else .ninf
  | .num n _, .inf => if n = 0 then .nan else if n > 0 then .inf else .ninf
  | .ninf, .num n _ => if n = 0 then .nan else if n > 0 then .ninf else .inf
  | .num n _, .ninf => if n = 0 then .nan else if n > 0 then .ninf else .inf
  | .num n1 d1, .num n2 d2 => .num (n1 * n2) (d1 * d2)

/-- JS `/` on numbers: division by zero is a signed infinity, `0/0` NaN;
the `-0` results, indistinguishable once printed, collapse to 0. -/
def jsDiv : JSNum → JSNum → JSNum
  | .nan, _ => .nan
  | _, .nan => .nan
  | .inf, .num n _ => if n ≥ 0 then .inf else .ninf
  | .ninf, .num n _ => if n ≥ 0 then .ninf else .inf
  | .num _ _, .inf => .num 0 1
  | .num _ _, .ninf => .num 0 1
  | .inf, _ => .nan
  | .ninf, _ => .nan
  | .num n1 d1, .num n2 d2 =>
    if n2 = 0 then
      if n1 = 0 then .nan else if n1 > 0 then .inf else .ninf
    else if n2 > 0 then .num (n1 * d2) (d1 * n2.toNat)
    else .num (-(n1 * d2)) (d1 * (-n2).toNat)

/-- JS `%` on numbers: the remainder with the dividend's sign, exact on
finite operands (`x % 0` and `Infinity % x` are NaN, `x % Infinity` is
`x`). -/
def jsMod : JSNum → JSNum → JSNum
  | .nan, _ => .nan
  | _, .nan => .nan
  | .inf, _ => .nan
  | .ninf, _ => .nan
  | .num n1 d1, .inf => .num n1 d1
  | .num n1 d1, .ninf => .num n1 d1
  | .num n1 d1, .num n2 d2 =>
    if n2 = 0 then .nan
    else
      let t := (n1 * d2).tdiv (n2 * d1)
      .num (n1 * d2 - t * (n2 * d1)) (d1 * d2)

/-- Euclid's algorithm, one fuel unit per step; the first argument shrinks
strictly each step, so passing it as the fuel always suffices. -/
def gcdF : Nat → Nat → Nat → Nat
  | 0, _, b => b
  | fuel+1, a, b => if a = 0 then b else gcdF fuel (b % a) a

/-- Greatest common divisor. -/
def natGcd (a b : Nat) : Nat := gcdF a a b

/-- Multiplicity of `p` in `d` (fuelled by `d`). -/
def powOf (p : Nat) : Nat → Nat → Nat
  | 0, _ => 0
  | fuel+1, d =>
    if 2 ≤ p ∧ d ≠ 0 ∧ d % p = 0 then powOf p fuel (d / p) + 1 else 0

/-- Exact decimal rendering of the rational `n / d` (`d` positive):
integers print as plain digit strings and terminating decimals with a
point and no trailing zeros — exactly JS's output on the binary64-exact
fragment; a non-terminating expansion (necessarily outside that fragment)
is rendered as an exact fraction. -/
def ratToString (n : Int) (d : Nat) : String :=
  if n = 0 then "0"
  else
    let g := natGcd n.natAbs d
    let n1 := n.natAbs / g
    let d1 := d / g
    let a := powOf 2 d1 d1
    let b := powOf 5 d1 d1
    let sign := if n < 0 then "-" else ""
    if d1 = 2 ^ a * 5 ^ b then
      let k := max a b
      let m := n1 * ((10 ^ k) / d1)
      let ds := (toString m).data
      let pad := List.replicate (k + 1 - ds.length) '0' ++ ds
      let ip : String := ⟨pad.take (pad.length - k)⟩
      let fp : String := ⟨pad.drop (pad.length - k)⟩
      if k = 0 then sign ++ ip else sign ++ ip ++ "." ++ fp
    else sign ++ toString n1 ++ "/" ++ toString d1

/-- JS number-to-string. -/
def jsNumToString : JSNum → String
  | .nan => "NaN"
  | .inf => "Infinity"
  | .ninf => "-Infinity"
  | .num n d => ratToString n d

/-- Embeds `evaluateConstantExpression`: `Number` both operands, apply the
JS operation, and render the result back to a string.  The default branch
returns the first operand unchanged (which may be null, since the callers
pass possibly-null fields despite the string type). -/
def evaluateConstantExpression (op : String) (arg1 arg2 : Option String) :
    Option String :=
  let num1 := jsNumber arg1
  let num2 := jsNumber arg2
  match op with
  | "+" => some (jsNumToString (jsAdd num1 num2))
  | "-" => some (jsNumToString (jsSub num1 num2))
  | "*" => some (jsNumToString (jsMul num1 num2))
  | "/" => some (jsNumToString (jsDiv num1 num2))
  | "%" => some (jsNumToString (jsMod num1 num2))
  | _ => arg1

/-- `constants.get(x) || x` from `constantFolding` (an absent key, a stored
null and a stored empty string all fall back to the original operand). -/
def resolveOperand (cs : List (Option String × Option String))
    (x : Option String) : Option String :=
  match mapGet cs x with
  | some v => jsOr v x
  | none => x

/-- One iteration of the `constantFolding` loop; the accumulator is the
`constants` map (keys may be null: `instr.result!` is only a type assertion)
and the instructions pushed so far. -/
def cfStep (acc : List (Option String × Option String) × List TACInstruction)
    (instr : TACInstruction) :
    List (Option String × Option String) × List TACInstruction :=
  let cs := acc.1
  let out := acc.2
  if instr.op = "LABEL" ∨ instr.op = "GOTO" ∨ instr.op = "IF_FALSE" then
    (cs, out ++ [instr])
  else if instr.op = "=" ∧ jsNotNaN instr.arg1 then
    (mapSet cs instr.result instr.arg1, out ++ [instr])
  else
    let a1 := resolveOperand cs instr.arg1
    let a2 := resolveOperand cs instr.arg2
    if instr.op ≠ "=" ∧ jsNotNaN a1 ∧ jsNotNaN a2 then
      let r := evaluateConstantExpression instr.op a1 a2
      (mapSet cs instr.result r,
        out ++ [{ op := "=", arg1 := r, arg2 := none, result := instr.result }])
    else
      (cs, out ++ [{ instr with arg1 := a1, arg2 := a2 }])

/-- `constantFolding` (pass 1). -/
def constantFolding (func : TACFunction) : TACFunction :=
  { func with instructions := (func.instructions.foldl cfStep ([], [])).2 }

/-- First pass of `deadCodeElimination`: collect every truthy `arg1`/`arg2`
not starting with the letter L into the `usedVars` set (a JS `Set`, modelled
as a list observed through membership only). -/
def usedVarsStep (s : List String) (i : TACInstruction) : List String :=
  let s1 := match i.arg1 with
    | some a => if a ≠ "" ∧ ¬ strHeadIs 'L' a then a :: s else s
    | none => s
  match i.arg2 with
  | some a => if a ≠ "" ∧ ¬ strHeadIs 'L' a then a :: s1 else s1
  | none => s1

/-- The whole-function `usedVars` set of `deadCodeElimination`. -/
def usedVars (instrs : List TACInstruction) : List String :=
  instrs.foldl usedVarsStep []

/-- JS `usedVars.has(instr.result!)`: the set only ever contains strings, so
a null destination is never found. -/
def usedHas (s : List String) : Option String → Bool
  | some r => s.contains r
  | none => false

/-- `deadCodeElimination` (pass 2). -/
def deadCodeElimination (func : TACFunction) : TACFunction :=
  let used := usedVars func.instructions
  let kept := func.instructions.filter
    (fun i => ¬ (i.op = "=" ∧ ¬ usedHas used i.result))
  { func with instructions := kept }

/-- The expression key of `commonSubexpressionElimination`:
JS template literal over the opcode and the two (possibly null) operands. -/
def cseKey (instr : TACInstruction) : String :=
  instr.op ++ jsShow instr.arg1 ++ jsShow instr.arg2

/-- One iteration of the `commonSubexpressionElimination` loop; the
accumulator is the `expressions` map (values are the possibly-null result
operands) and the instructions pushed so far. -/
def cseStep (acc : List (String × Option String) × List TACInstruction)
    (instr : TACInstruction) :
    List (String × Option String) × List TACInstruction :=
  let exprs := acc.1
  let out := acc.2
  if instr.op = "LABEL" ∨ instr.op = "GOTO" ∨ instr.op = "IF_FALSE" then
    (exprs, out ++ [instr])
  else
    match mapGet exprs (cseKey instr) with
    | some prev =>
        (exprs,
          out ++ [{ op := "=", arg1 := prev, arg2 := none, result := instr.result }])
    | none =>
        (mapSet exprs (cseKey instr) instr.result, out ++ [instr])

/-- `commonSubexpressionElimination` (pass 3). -/
def commonSubexpressionElimination (func : TACFunction) : TACFunction :=
  { func with instructions := (func.instructions.foldl cseStep ([], [])).2 }

/-- `instr.result?.startsWith('L')` (optional chaining: null is falsy). -/
def optStartsWithL : Option String → Bool
  | some r => strHeadIs 'L' r
  | none => false

/-- Embeds the `loopOptimization` scan.  When a LABEL whose name starts with
L is later followed by a GOTO back to it and the span from the label up to
(excluding) that GOTO contains a `+ _ 1` instruction, the reference code
pushes only the retagged label and then sets `i = loopEnd + 1`, resuming
after the GOTO.  The `fuel` argument only bounds the number of iterations of
the `while` loop; each iteration advances the index by at least one, so with
`fuel` at least the instruction count (as supplied by `loopOptimization`)
the zero-fuel branch is never taken. -/
def loopOptGo : Nat → List TACInstruction → List TACInstruction
  | _, [] => []
  | 0, l => l
  | fuel + 1, instr :: rest =>
    if instr.op = "LABEL" ∧ optStartsWithL instr.result then
      match rest.findIdx? (fun c => decide (c.op = "GOTO" ∧ c.arg1 = instr.result)) with
      | some k =>
          if (instr :: rest.take k).any
              (fun c => decide (c.op = "+" ∧ c.arg2 = some "1")) then
            { instr with label := some "OPTIMIZED_LOOP" } ::
              loopOptGo fuel (rest.drop (k + 1))
          else
            instr :: loopOptGo fuel rest
      | none => instr :: loopOptGo fuel rest
    else
      instr :: loopOptGo fuel rest

/-- `loopOptimization` (pass 4). -/
def loopOptimization (func : TACFunction) : TACFunction :=
  { func with instructions :=
      loopOptGo func.instructions.length func.instructions }

/-- `optimizeFunction`: the four passes in their fixed order. -/
def optimizeFunction (func : TACFunction) : TACFunction :=
  loopOptimization
    (commonSubexpressionElimination (deadCodeElimination (constantFolding func)))

/-- A counting loop in TAC, exactly as the IR generator shapes it: a label,
an increment by one, a store, and the back jump. -/
def c1LoopDemo : TACFunction :=
  { name := "main", params := [],
    instructions :=
      [ { op := "LABEL", arg1 := none, arg2 := none, result := some "L1" },
        { op := "+", arg1 := some "i", arg2 := some "1", result := some "t1" },
        { op := "=", arg1 := some "t1", arg2 := none, result := some "i" },
        { op := "GOTO", arg1 := some "L1", arg2 := none, result := none } ],
    tempCount := 1 }

/-- A function whose only `=` instruction assigns to a variable named `Lx`
that is later referenced as a source operand. -/
def c4Demo : TACFunction :=
  { name := "f", params := [], tempCount := 0,
    instructions :=
      [ { op := "=", arg1 := some "5", arg2 := none, result := some "Lx" },
        { op := "RETURN", arg1 := some "Lx", arg2 := none, result := none } ] }

/-- Two identical parameter pushes and two identical calls. -/
def c10Demo : TACFunction :=
  { name := "main", params := [], tempCount := 2,
    instructions :=
      [ { op := "PARAM", arg1 := some "x", arg2 := none, result := none },
        { op := "CALL", arg1 := some "f", arg2 := some "1", result := some "t1" },
        { op := "PARAM", arg1 := some "x", arg2 := none, result := none },
        { op := "CALL", arg1 := some "f", arg2 := some "1", result := some "t2" } ] }

end Opt

namespace CodeGen

/-! Embedding of `CodeGenerator` (`codeGenerator.ts`).  The mutable fields
`functions`, `currentFunction` and `localVars` are passed explicitly;
`allocateLocalVar` is called only from the parameter loop of
`generateFunction`, so `localVars` always holds exactly the parameters. -/

/-- JS `parseInt(x)` restricted to the argument-count strings the pipeline
produces (decimal integers, an optional minus sign); `none` models NaN
(`parseInt(null)` is NaN, and any comparison with NaN is false). -/
def jsParseInt : Option String → Option Int
  | none => none
  | some s => if jsNumericString s ∧ s ≠ "" then some (jsToInt s) else none

/-- `getOperandLocation`: numerals pass through, known locals/parameters map
to frame offsets, anything else is returned as a bare name; when the current
function is missing from the map, JS computes `8 + undefined * 4 = NaN`. -/
def getOperandLocation (funcs : List (String × TACFunction)) (current : String)
    (localVars : List (String × Int)) (operand : Option String) : String :=
  match operand with
  | none => ""
  | some op =>
    if op = "" then ""
    else if jsNumericString op then op
    else
      match mapGet localVars op with
      | some off =>
          "[ebp" ++ (if off ≥ 0 then "+" else "") ++ toString off ++ "]"
      | none =>
        match mapGet funcs current with
        | some f =>
          match f.params.indexOf? op with
          | some paramIndex => "[ebp+" ++ toString (8 + paramIndex * 4) ++ "]"
          | none => op
        | none => "[ebp+NaN]"

/-- `generateAssignment`. -/
def generateAssignment (funcs : List (String × TACFunction)) (current : String)
    (localVars : List (String × Int)) (instr : TACInstruction) : List String :=
  let dest := getOperandLocation funcs current localVars instr.result
  let src := getOperandLocation funcs current localVars instr.arg1
  if strHeadIs '[' src then
    ["    mov eax, " ++ src, "    mov " ++ dest ++ ", eax"]
  else
    ["    mov " ++ dest ++ ", " ++ src]

/-- `generateArithmetic` (the memory/immediate branches of the source both
emit the same `mov eax` line). -/
def generateArithmetic (funcs : List (String × TACFunction)) (current : String)
    (localVars : List (String × Int)) (instr : TACInstruction) : List String :=
  let dest := getOperandLocation funcs current localVars instr.result
  let left := getOperandLocation funcs current localVars instr.arg1
  let right := getOperandLocation funcs current localVars instr.arg2
  ["    mov eax, " ++ left] ++
    (match instr.op with
     | "+" => ["    add eax, " ++ right]
     | "-" => ["    sub eax, " ++ right]
     | "*" => ["    imul eax, " ++ right]
     | "/" => ["    cdq", "    idiv " ++ right]
     | "%" => ["    cdq", "    idiv " ++ right, "    mov eax, edx"]
     | _ => []) ++
    ["    mov " ++ dest ++ ", eax"]

/-- `generateConditionalJump` (a null jump target prints as `null`). -/
def generateConditionalJump (funcs : List (String × TACFunction)) (current : String)
    (localVars : List (String × Int)) (instr : TACInstruction) : List String :=
  let condition := getOperandLocation funcs current localVars instr.arg1
  ["    cmp " ++ condition ++ ", 0", "    je " ++ jsShow instr.arg2]

/-- `generateParameter`. -/
def generateParameter (funcs : List (String × TACFunction)) (current : String)
    (localVars : List (String × Int)) (instr : TACInstruction) : List String :=
  ["    push " ++ getOperandLocation funcs current localVars instr.arg1]

/-- `generateFunctionCall`. -/
def generateFunctionCall (funcs : List (String × TACFunction)) (current : String)
    (localVars : List (String × Int)) (instr : TACInstruction) : List String :=
  let result := getOperandLocation funcs current localVars instr.result
  ["    call " ++ jsShow instr.arg1] ++
    (match jsParseInt instr.arg2 with
     | some argCount =>
        if argCount > 0 then ["    add esp, " ++ toString (argCount * 4)] else []
     | none => []) ++
    (if result ≠ "" then ["    mov " ++ result ++ ", eax"] else [])

/-- `generateReturn`: moves a truthy value into the accumulator, then jumps
to `<currentFunction>_end`. -/
def generateReturn (funcs : List (String × TACFunction)) (current : String)
    (localVars : List (String × Int)) (instr : TACInstruction) : List String :=
  (if jsTruthy instr.arg1 then
    ["    mov eax, " ++ getOperandLocation funcs current localVars instr.arg1]
  else []) ++
  ["    jmp " ++ current ++ "_end"]

/-- `generateInstruction`: the optional `instr.label` line (falsy labels are
skipped) followed by the opcode dispatch (no default case). -/
def generateInstruction (funcs : List (String × TACFunction)) (current : String)
    (localVars : List (String × Int)) (instr : TACInstruction) : List String :=
  (match instr.label with
   | some l => if l = "" then [] else [l ++ ":"]
   | none => []) ++
  (match instr.op with
   | "LABEL" => [jsShow instr.result ++ ":"]
   | "=" => generateAssignment funcs current localVars instr
   | "+" | "-" | "*" | "/" | "%" => generateArithmetic funcs current localVars instr
   | "IF_FALSE" => generateConditionalJump funcs current localVars instr
   | "GOTO" => ["    jmp " ++ jsShow instr.arg1]
   | "PARAM" => generateParameter funcs current localVars instr
   | "CALL" => generateFunctionCall funcs current localVars instr
   | "RETURN" => generateReturn funcs current localVars instr
   | _ => [])

/-- The `localVars` map after the parameter loop of `generateFunction`:
parameter i sits at frame offset `8 + i * 4`. -/
def paramOffsets (params : List String) : List (String × Int) :=
  params.enum.foldl (fun m ip => mapSet m ip.2 ((8 + ip.1 * 4 : Int))) []

/-- `generateFunction`: prologue, parameter slots, the translated
instructions, and the shared epilogue.  No `<name>_end` label line is ever
pushed. -/
def generateFunction (funcs : List (String × TACFunction)) (name : String)
    (f : TACFunction) : List String :=
  let localVars := paramOffsets f.params
  ["; Function: " ++ name, name ++ ":", "    push ebp", "    mov ebp, esp"] ++
    (if f.tempCount * 4 > 0 then ["    sub esp, " ++ toString (f.tempCount * 4)] else []) ++
    (f.instructions.map (generateInstruction funcs name localVars)).flatten ++
    ["    mov esp, ebp", "    pop ebp", "    ret", ""]

/-- `generate`: the data and text headers followed by every function's
lines, joined with newlines by the caller. -/
def generate (funcs : List (String × TACFunction)) : List String :=
  ["section .data",
   "    format_int db \"%d\", 10, 0    ; Format string for integers",
   "    format_float db \"%f\", 10, 0  ; Format string for floats",
   "    format_string db \"%s\", 10, 0 ; Format string for strings",
   "",
   "section .text",
   "    global main",
   "    extern printf",
   "    extern scanf",
   ""] ++
  (funcs.map (fun nf => generateFunction funcs nf.1 nf.2)).flatten

end CodeGen

namespace IRGen

/-! Embedding of the expression lowering of `IntermediateCodeGenerator`
(`intermediateCodeGenerator.ts`).  The mutable `currentFunction` fields that
expression lowering touches (`instructions`, `tempCount`) form the explicit
state; lowering returns the JS string naming the expression's value
(`undefined` results are `none`, the `''` fallback is `some ""`). -/

/-- The instruction list and temporary counter of `currentFunction`. -/
structure GenState where
  instructions : List TACInstruction
  tempCount : Nat
deriving Repr, DecidableEq

/-- `emitInstruction`. -/
def emitInstruction (st : GenState) (op : String)
    (arg1 arg2 result : Option String) : GenState :=
  { st with instructions := st.instructions ++ [⟨op, arg1, arg2, result, none⟩] }

/-- `newTemp`: increments the per-function counter and names `t<count>`. -/
def newTemp (st : GenState) : GenState × String :=
  ({ st with tempCount := st.tempCount + 1 },
    "t" ++ toString (st.tempCount + 1))

mutual

/-- `generateExpression`: a null or unhandled expression yields `''`. -/
def generateExpression (st : GenState) : Option Node → GenState × Option String
  | none => (st, some "")
  | some e =>
    match e with
    | .assignmentExpression _ left right =>
        generateAssignmentExpression st left right
    | .binaryExpression op left right =>
        generateBinaryExpression st op left right
    | .identifier n => (st, some n)
    | .literal v => generateLiteral st v
    | .functionCall n args => generateFunctionCall st n args
    | .preExpr op arg => generateUnaryExpression st op arg false
    | .postExpr op arg => generateUnaryExpression st op arg false
    | _ => (st, some "")
termination_by o => sizeOf o

/-- `generateAssignmentExpression`: lowers the right side, stores into
`expr.left.name`, and returns `expr.left.name`. -/
def generateAssignmentExpression (st : GenState) (left right : Option Node) :
    GenState × Option String :=
  let p := generateExpression st right
  (emitInstruction p.1 "=" p.2 none (jsNameAttrOpt left), jsNameAttrOpt left)
termination_by sizeOf left + sizeOf right + 1

/-- `generateBinaryExpression`. -/
def generateBinaryExpression (st : GenState) (op : String)
    (left right : Option Node) : GenState × Option String :=
  let p := generateExpression st left
  let q := generateExpression p.1 right
  let r := newTemp q.1
  (emitInstruction r.1 op p.2 q.2 (some r.2), some r.2)
termination_by sizeOf left + sizeOf right + 1

/-- `generateLiteral`: materialises the literal text into a fresh
temporary (the parser stores the raw token text as the value). -/
def generateLiteral (st : GenState) (v : String) : GenState × Option String :=
  let r := newTemp st
  (emitInstruction r.1 "=" (some v) none (some r.2), some r.2)

/-- The `expr.arguments.map(...)` of `generateFunctionCall`. -/
def generateArgs (st : GenState) : List Node → GenState × List (Option String)
  | [] => (st, [])
  | a :: rest =>
    let p := generateExpression st (some a)
    let q := generateArgs p.1 rest
    (q.1, p.2 :: q.2)
termination_by l => sizeOf l
decreasing_by
  all_goals simp_wf
  all_goals (have h : 0 < sizeOf rest := by cases rest <;> simp_arith
             omega)

/-- `generateFunctionCall`: lowers the arguments, allocates the result
temporary, pushes one PARAM per argument, then the CALL with the literal
argument count. -/
def generateFunctionCall (st : GenState) (n : String) (args : List Node) :
    GenState × Option String :=
  let p := generateArgs st args
  let r := newTemp p.1
  let st2 := p.2.foldl (fun s a => emitInstruction s "PARAM" a none none) r.1
  (emitInstruction st2 "CALL" (some n) (some (toString args.length)) (some r.2),
    some r.2)
termination_by sizeOf args + 1

/-- `generateUnaryExpression`.  `pFlag` embeds `expr.prefix`; the parser
never sets a `prefix` field on PrefixExpression or PostfixExpression nodes,
so both callers pass `false` (JS `undefined` is falsy) and the
`resultTemp` branch of the final conditional is unreachable from this
pipeline's ASTs. -/
def generateUnaryExpression (st : GenState) (operator : String)
    (argument : Option Node) (pFlag : Bool) : GenState × Option String :=
  let p := generateExpression st argument
  let r := newTemp p.1
  if operator = "++" ∨ operator = "--" then
    let op := if operator = "++" then "+" else "-"
    let st3 := emitInstruction r.1 op p.2 (some "1") (some r.2)
    let st4 := emitInstruction st3 "=" (some r.2) none (jsNameAttrOpt argument)
    (st4, if pFlag then some r.2 else p.2)
  else
    (emitInstruction r.1 operator p.2 none (some r.2), some r.2)
termination_by sizeOf argument + 1

end

end IRGen

namespace Sem0

/-! Embedding of the pipeline's `SemanticAnalyzer` (the minimal analyzer the
compiler pipeline uses; `console.log` calls are pure logging and have no
state effect).  JS `Map`s here are association lists updated in place
(`mapSetR`), JS `undefined` string reads are `Option String`. -/

/-- A symbol-table value.  The `line` field is `node.loc?.start?.line`,
which is always undefined on this parser's ASTs, and is omitted. -/
structure SymInfo where
  name : String
  type : String
  isParam : Bool
  scope : String
deriving Repr, DecidableEq

/-- A parameter record inside a function-table value; stdlib entries carry
no `isParam` field (`none`), user entries carry `true`. -/
structure ParamInfo where
  name : String
  type : String
  isParam : Option Bool
deriving Repr, DecidableEq

/-- A function-table value. -/
structure FuncInfo where
  name : String
  params : List ParamInfo
  returnType : String
  isStandardLibrary : Bool
deriving Repr, DecidableEq

/-- The analyzer's mutable fields. -/
structure AState where
  currentFunctionScope : Option String
  symbolTable : List (String × SymInfo)
  functionTable : List (String × FuncInfo)
  errors : List String
  globalSymbolTable : List (String × SymInfo)
deriving Repr

/-- `addStandardLibraryFunctions`: seeds the seven stdlib signatures. -/
def addStandardLibraryFunctions (st : AState) : AState :=
  let entries : List FuncInfo :=
    [ { name := "printf", params := [⟨"format", "char*", none⟩],
        returnType := "int", isStandardLibrary := true },
      { name := "scanf", params := [⟨"format", "char*", none⟩],
        returnType := "int", isStandardLibrary := true },
      { name := "strlen", params := [⟨"str", "char*", none⟩],
        returnType := "int", isStandardLibrary := true },
      { name := "strcpy", params := [⟨"dest", "char*", none⟩, ⟨"src", "char*", none⟩],
        returnType := "char*", isStandardLibrary := true },
      { name := "malloc", params := [⟨"size", "int", none⟩],
        returnType := "void*", isStandardLibrary := true },
      { name := "free", params := [⟨"ptr", "void*", none⟩],
        returnType := "void", isStandardLibrary := true },
      { name := "exit", params := [⟨"status", "int", none⟩],
        returnType := "void", isStandardLibrary := true } ]
  { st with functionTable :=
      entries.foldl (fun t fn => mapSetR t fn.name fn) st.functionTable }

/-- `expr.left.name` printed into an error message (`undefined` when the
node has no name field). -/
def jsShowU : Option String → String
  | none => "undefined"
  | some s => s

/-- `param?.paramName` of a parameter-list entry. -/
def jsParamName : Node → Option String
  | .parameter _ n => some n
  | _ => none

/-- `param?.paramType` of a parameter-list entry. -/
def jsParamType : Node → Option String
  | .parameter t _ => some t
  | _ => none

/-- `analyzeIdentifier` (not recursive, so outside the mutual block). -/
def analyzeIdentifier (st : AState) (n : String) : AState :=
  if (mapGet st.symbolTable n).isSome then st
  else { st with errors :=
    st.errors ++ ["Variable \x27" ++ n ++ "\x27 not declared"] }

mutual

/-- `analyzeStatement` (`if (!stmt) return` models a null statement). -/
def analyzeStatement (st : AState) : Option Node → AState
  | none => st
  | some stmt =>
    match stmt with
    | .declarationStatement varType vars => analyzeVars st varType vars
    | .expressionStatement e => analyzeExpression st e
    | .returnStatement e => analyzeReturnStatement st e
    | .ifStatement c t e => analyzeIfStatement st c t e
    | .forStatement i c inc b => analyzeForStatement st i c inc b
    | .compoundStatement body => analyzeStmtList st body
    | _ => st
termination_by o => sizeOf o

/-- The loop of `analyzeCompoundStatement`. -/
def analyzeStmtList (st : AState) : List Node → AState
  | [] => st
  | stmt :: rest => analyzeStmtList (analyzeStatement st (some stmt)) rest
termination_by l => sizeOf l
decreasing_by
  all_goals simp_wf
  all_goals (have h : 0 < sizeOf rest := by cases rest <;> simp_arith
             omega)

/-- The variable loop of `analyzeDeclaration`.  Every entry the parser puts
in a declaration's list is a `VariableDeclarator`; other node shapes are
skipped (JS would key the tables on `undefined` there, unreachable from
this parser). -/
def analyzeVars (st : AState) (varType : String) : List Node → AState
  | [] => st
  | v :: rest =>
    match v with
    | .variableDeclarator nm declInit =>
      if (mapGet st.symbolTable nm).isSome then
        analyzeVars
          { st with errors :=
              st.errors ++ ["Variable \x27" ++ nm ++ "\x27 already declared"] }
          varType rest
      else
        let symbolInfo : SymInfo :=
          { name := nm,
            type := if varType = "" then "int" else varType,
            isParam := false,
            scope := (st.currentFunctionScope).getD "global" }
        let st1 := { st with
          symbolTable := mapSetR st.symbolTable nm symbolInfo,
          globalSymbolTable := mapSetR st.globalSymbolTable nm symbolInfo }
        let st2 := match declInit with
          | some declInit => analyzeExpression st1 (some declInit)
          | none => st1
        analyzeVars st2 varType rest
    | _ => analyzeVars st varType rest
termination_by l => sizeOf l
decreasing_by all_goals simp_wf

/-- `analyzeExpression` (`if (!expr) return`; no case for literals beyond
the no-op `analyzeLiteral`). -/
def analyzeExpression (st : AState) : Option Node → AState
  | none => st
  | some expr =>
    match expr with
    | .assignmentExpression _ left right =>
        analyzeAssignmentExpression st left right
    | .binaryExpression _ left right => analyzeBinaryExpression st left right
    | .identifier n => analyzeIdentifier st n
    | .literal _ => st
    | .functionCall n args => analyzeFunctionCall st n args
    | .preExpr _ arg => analyzeUnaryExpression st arg
    | .postExpr _ arg => analyzeUnaryExpression st arg
    | _ => st
termination_by o => sizeOf o

/-- `analyzeAssignmentExpression`: an undeclared (or unnamed) left side is
reported, then the right side is analyzed. -/
def analyzeAssignmentExpression (st : AState) (left right : Option Node) :
    AState :=
  analyzeExpression
    (if (match jsNameAttrOpt left with
         | some n => (mapGet st.symbolTable n).isSome
         | none => false) then st
     else { st with errors := st.errors ++
       ["Variable \x27" ++ jsShowU (jsNameAttrOpt left) ++ "\x27 not declared"] })
    right
termination_by sizeOf left + sizeOf right + 1

/-- `analyzeBinaryExpression`. -/
def analyzeBinaryExpression (st : AState) (left right : Option Node) : AState :=
  analyzeExpression (analyzeExpression st left) right
termination_by sizeOf left + sizeOf right + 1

/-- `analyzeFunctionCall`: unknown callee is reported and the call is
abandoned; otherwise the arity check (skipped for `printf`) runs before the
arguments are analyzed. -/
def analyzeFunctionCall (st : AState) (n : String) (args : List Node) : AState :=
  match mapGet st.functionTable n with
  | none =>
      { st with errors :=
          st.errors ++ ["Function \x27" ++ n ++ "\x27 not declared"] }
  | some func =>
      analyzeExprList
        (if n ≠ "printf" ∧ args.length ≠ func.params.length then
          { st with errors := st.errors ++
            ["Function \x27" ++ n ++ "\x27 expects " ++
              toString func.params.length ++ " arguments but got " ++
              toString args.length] }
         else st)
        args
termination_by sizeOf args + 1

/-- The argument loop of `analyzeFunctionCall`. -/
def analyzeExprList (st : AState) : List Node → AState
  | [] => st
  | e :: rest => analyzeExprList (analyzeExpression st (some e)) rest
termination_by l => sizeOf l
decreasing_by
  all_goals simp_wf
  all_goals (have h : 0 < sizeOf rest := by cases rest <;> simp_arith
             omega)

/-- `analyzeReturnStatement`. -/
def analyzeReturnStatement (st : AState) (e : Option Node) : AState :=
  match e with
  | some e => analyzeExpression st (some e)
  | none => st

/-- `analyzeIfStatement`. -/
def analyzeIfStatement (st : AState) (c t e : Option Node) : AState :=
  let st1 := analyzeExpression st c
  let st2 := analyzeStatement st1 t
  match e with
  | some e => analyzeStatement st2 (some e)
  | none => st2
termination_by sizeOf c + sizeOf t + sizeOf e + 1

/-- `analyzeForStatement`. -/
def analyzeForStatement (st : AState) (i c inc b : Option Node) : AState :=
  let st1 := match i with
    | some i => analyzeStatement st (some i)
    | none => st
  let st2 := analyzeExpression st1 c
  let st3 := match inc with
    | some inc => analyzeExpression st2 (some inc)
    | none => st2
  analyzeStatement st3 b
termination_by sizeOf i + sizeOf c + sizeOf inc + sizeOf b + 1

/-- `analyzeUnaryExpression`. -/
def analyzeUnaryExpression (st : AState) (arg : Option Node) : AState :=
  analyzeExpression st arg
termination_by sizeOf arg + 1

end

/-- `x || y` for a possibly-undefined, possibly-empty JS string. -/
def jsOrDefault (x : Option String) (y : String) : String :=
  match x with
  | some s => if s = "" then y else s
  | none => y

/-- `analyzeFunction`: sets the scope, builds the parameter records (with
`param<i>`/`int` fallbacks for malformed entries), registers them in the
global symbol table, registers the signature, analyzes the body against a
fresh symbol table seeded with the parameters, merges the local symbols
into the global table under the function's scope, and restores the previous
table and scope. -/
def analyzeFunction (st : AState) (rt : String) (nm : String)
    (paramNodes : List Node) (body : Node) : AState :=
  let prevScope := st.currentFunctionScope
  let funcName := if nm = "" then "anonymous" else nm
  let params : List ParamInfo := paramNodes.enum.map (fun ip =>
    { name := jsOrDefault (jsParamName ip.2) ("param" ++ toString ip.1),
      type := jsOrDefault (jsParamType ip.2) "int",
      isParam := some true })
  let gst := params.foldl
    (fun g p => mapSetR g p.name
      { name := p.name, type := p.type, isParam := true, scope := funcName })
    st.globalSymbolTable
  let st1 := { st with currentFunctionScope := some funcName,
                       globalSymbolTable := gst }
  let functionInfo : FuncInfo :=
    { name := funcName, params := params,
      returnType := if rt = "" then "int" else rt,
      isStandardLibrary := false }
  let ft := mapSetR st1.functionTable funcName functionInfo
  let st2 := { st1 with functionTable := ft }
  let oldSymbolTable := st2.symbolTable
  let localTable := params.foldl
    (fun t p => mapSetR t p.name
      { name := p.name, type := p.type, scope := funcName, isParam := true })
    []
  let st3 := { st2 with symbolTable := localTable }
  let st4 := match body with
    | .compoundStatement stmts =>
      let st4a := analyzeStmtList st3 stmts
      let gst2 := st4a.symbolTable.foldl
        (fun g (e : String × SymInfo) => mapSetR g e.1 { e.2 with scope := funcName })
        st4a.globalSymbolTable
      { st4a with globalSymbolTable := gst2 }
    | _ => st3
  { st4 with symbolTable := oldSymbolTable, currentFunctionScope := prevScope }

/-- `analyze`: clears the tables and diagnostics, reseeds the stdlib, then
the first pass processes every `FunctionDeclaration` (the second pass of
the source only logs).  The returned result object exposes
`globalSymbolTable` under the name `symbolTable`, plus the function table
and the errors. -/
def analyze (st : AState) (ast : Option Node) : AState :=
  let st1 := addStandardLibraryFunctions
    { st with symbolTable := [], functionTable := [],
              globalSymbolTable := [], errors := [] }
  match ast with
  | some (.program body) =>
      body.foldl (fun s node =>
        match node with
        | .functionDeclaration rt nm ps b => analyzeFunction s rt nm ps b
        | _ => s) st1
  | _ => st1

/-- The state a freshly constructed analyzer is in (the constructor seeds
the stdlib signatures into otherwise empty tables). -/
def initialState : AState :=
  addStandardLibraryFunctions
    { currentFunctionScope := none, symbolTable := [], functionTable := [],
      errors := [], globalSymbolTable := [] }

/-- A program declaring `int f(int a, int b)` and calling `f(1)` from
`main`. -/
def c8Demo : Node := .program
  [ .functionDeclaration "int" "f" [.parameter "int" "a", .parameter "int" "b"]
      (.compoundStatement [.returnStatement (some (.literal "0"))]),
    .functionDeclaration "int" "main" []
      (.compoundStatement
        [.expressionStatement (some (.functionCall "f" [.literal "1"]))]) ]

end Sem0

namespace Sem1

/-! Embedding of the richer, scope-tracking `SemanticAnalyzer` (the second,
divergent analyzer implementation).  `Date.now()` is modelled as an
explicit clock stream (`clock`, read at `clockPos`) in the state; the
`SemanticError` node reference is omitted (messages only); `Record` objects
are association lists in insertion order (`mapSetR`). -/

/-- `SymbolInfo` (the optional `line` field is never set). -/
structure SymbolInfo where
  name : String
  type : String
  scope : String
  isInitialized : Bool
deriving Repr, DecidableEq

/-- `FunctionInfo`. -/
structure FunctionInfo where
  name : String
  returnType : String
  parameters : List SymbolInfo
  isDefined : Bool
deriving Repr, DecidableEq

/-- The analyzer's fields plus the ambient clock. -/
structure SState where
  symbolTable : List (String × List SymbolInfo)
  functionTable : List (String × FunctionInfo)
  currentScope : String
  errors : List String
  clock : Nat → Int
  clockPos : Nat

/-- One `Date.now()` reading. -/
def dateNow (st : SState) : Int × SState :=
  (st.clock st.clockPos, { st with clockPos := st.clockPos + 1 })

/-- `reset`: clears every table, the scope and the diagnostics (the ambient
clock is not part of the analyzer). -/
def reset (st : SState) : SState :=
  { st with symbolTable := [], functionTable := [],
            currentScope := "global", errors := [] }

/-- `convertToSymbolType`. -/
def convertToSymbolType (t : String) : String :=
  match t with
  | "int" => "int"
  | "float" => "float"
  | "double" => "double"
  | "char" => "char"
  | "void" => "void"
  | _ => "int"

/-- `isNumericType`. -/
def isNumericType (t : String) : Bool :=
  t = "int" || t = "float" || t = "double"

/-- `getWiderType`. -/
def getWiderType (t1 t2 : String) : String :=
  if t1 = "double" ∨ t2 = "double" then "double"
  else if t1 = "float" ∨ t2 = "float" then "float"
  else "int"

/-- `inferLiteralType` (the value is the raw token text). -/
def inferLiteralType (value : String) : String :=
  if strHeadIs '"' value then "string"
  else if value.data.contains '.' ∨ value.data.contains 'e' ∨
      value.data.contains 'E' then "float"
  else "int"

/-- `addSymbol`: appends to the current scope's symbol list. -/
def addSymbol (st : SState) (info : SymbolInfo) : SState :=
  let l := (mapGet st.symbolTable st.currentScope).getD []
  { st with symbolTable := mapSetR st.symbolTable st.currentScope (l ++ [info]) }

/-- First match by name in a scope's symbol list. -/
def findInList (l : List SymbolInfo) (name : String) : Option SymbolInfo :=
  l.find? (fun s => decide (s.name = name))

/-- `findSymbol`: current scope first, then the global scope. -/
def findSymbol (st : SState) (name : String) : Option SymbolInfo :=
  let fromCurrent := (mapGet st.symbolTable st.currentScope).bind
    (fun l => findInList l name)
  match fromCurrent with
  | some s => some s
  | none =>
    if st.currentScope ≠ "global" then
      (mapGet st.symbolTable "global").bind (fun l => findInList l name)
    else none

/-- `isSymbolDeclaredInCurrentScope`. -/
def isSymbolDeclaredInCurrentScope (st : SState) (name : String) : Bool :=
  match mapGet st.symbolTable st.currentScope with
  | some l => l.any (fun s => decide (s.name = name))
  | none => false

/-- Set `isInitialized` on the first symbol named `name`, reporting whether
one was found. -/
def setInitFirst : List SymbolInfo → String → Bool × List SymbolInfo
  | [], _ => (false, [])
  | s :: rest, name =>
    if s.name = name then (true, { s with isInitialized := true } :: rest)
    else
      let p := setInitFirst rest name
      (p.1, s :: p.2)

/-- The effect of `varInfo.isInitialized = true` through the object
reference `findSymbol` returned: the first match in the current scope's
list is updated, else the first match in the global list. -/
def markInitialized (st : SState) (name : String) : SState :=
  let inCurrent := match mapGet st.symbolTable st.currentScope with
    | some l => setInitFirst l name
    | none => (false, [])
  if inCurrent.1 then
    { st with symbolTable :=
        mapSetR st.symbolTable st.currentScope inCurrent.2 }
  else if st.currentScope ≠ "global" then
    match mapGet st.symbolTable "global" with
    | some l =>
      let p := setInitFirst l name
      if p.1 then { st with symbolTable := mapSetR st.symbolTable "global" p.2 }
      else st
    | none => st
  else st

/-- `node.body` as an array (only Program and CompoundStatement carry an
array body; on every other node `!node.body` guards or the call site never
reaches it). -/
def jsBodyList : Node → Option (List Node)
  | .program body => some body
  | .compoundStatement body => some body
  | _ => none

mutual

/-- `hasReturnStatement`, on the wrapped statement lists it traverses. -/
def hasReturnList : List Node → Bool
  | [] => false
  | stmt :: rest =>
    match stmt with
    | .returnStatement _ => true
    | .compoundStatement body => hasReturnList body || hasReturnList rest
    | .ifStatement _ t e =>
        ((match t with | some t => hasReturnList [t] | none => false) &&
         (match e with | some e => hasReturnList [e] | none => false)) ||
        hasReturnList rest
    | _ => hasReturnList rest
termination_by l => sizeOf l
decreasing_by all_goals simp_wf <;> omega

end

/-- `hasReturnStatement` on a node (`!node || !node.body` is false). -/
def hasReturnStatement (n : Node) : Bool :=
  match jsBodyList n with
  | some l => hasReturnList l
  | none => false

mutual

/-- `analyzeExpression` / `getExpressionType`: returns the inferred type
(or null) alongside the updated state. -/
def analyzeExpression (st : SState) : Option Node → SState × Option String
  | none => (st, none)
  | some expr =>
    match expr with
    | .assignmentExpression _ left right =>
        analyzeAssignmentExpression st left right
    | .binaryExpression op left right =>
        analyzeBinaryExpression st op left right
    | .identifier n => (analyzeIdentifier st n)
    | .literal v => (st, some (inferLiteralType v))
    | .functionCall n args => analyzeFunctionCall st n args
    | .preExpr op arg => analyzeUnaryExpression st op arg
    | .postExpr op arg => analyzeUnaryExpression st op arg
    | _ => (st, none)
termination_by o => sizeOf o

/-- `analyzeAssignmentExpression`. -/
def analyzeAssignmentExpression (st : SState) (left right : Option Node) :
    SState × Option String :=
  match left with
  | some (.identifier varName) =>
    (match findSymbol st varName with
     | none =>
        ({ st with errors := st.errors ++
            ["Variable \x22" ++ varName ++ "\x22 is not declared"] }, none)
     | some varInfo =>
        let st1 := markInitialized st varName
        let p := analyzeExpression st1 right
        (match p.2 with
         | some rightType =>
            if rightType ≠ varInfo.type then
              ({ p.1 with errors := p.1.errors ++
                ["Cannot assign value of type \x22" ++ rightType ++
                  "\x22 to variable of type \x22" ++ varInfo.type ++ "\x22"] },
               some varInfo.type)
            else (p.1, some varInfo.type)
         | none => (p.1, some varInfo.type)))
  | _ =>
      ({ st with errors := st.errors ++
          ["Left side of assignment must be a variable"] }, none)
termination_by sizeOf left + sizeOf right + 1

/-- `analyzeBinaryExpression`. -/
def analyzeBinaryExpression (st : SState) (op : String)
    (left right : Option Node) : SState × Option String :=
  let p := analyzeExpression st left
  let q := analyzeExpression p.1 right
  match p.2, q.2 with
  | some leftType, some rightType =>
    if op = "*" ∨ op = "/" ∨ op = "%" ∨ op = "+" ∨ op = "-" then
      if leftType = "string" ∧ op = "+" ∧ rightType = "string" then
        (q.1, some "string")
      else if ¬ isNumericType leftType ∨ ¬ isNumericType rightType then
        ({ q.1 with errors := q.1.errors ++
          ["Operator \x22" ++ op ++ "\x22 cannot be applied to types \x22" ++
            leftType ++ "\x22 and \x22" ++ rightType ++ "\x22"] }, none)
      else (q.1, some (getWiderType leftType rightType))
    else if op = "<" ∨ op = ">" ∨ op = "<=" ∨ op = ">=" ∨ op = "==" ∨ op = "!=" then
      if leftType ≠ rightType ∧
          ¬ (isNumericType leftType ∧ isNumericType rightType) then
        ({ q.1 with errors := q.1.errors ++
          ["Cannot compare values of types \x22" ++ leftType ++
            "\x22 and \x22" ++ rightType ++ "\x22"] }, some "int")
      else (q.1, some "int")
    else (q.1, none)
  | _, _ => (q.1, none)
termination_by sizeOf left + sizeOf right + 1

/-- `analyzeIdentifier`. -/
def analyzeIdentifier (st : SState) (varName : String) :
    SState × Option String :=
  match findSymbol st varName with
  | none =>
      ({ st with errors := st.errors ++
          ["Variable \x22" ++ varName ++ "\x22 is not declared"] }, none)
  | some varInfo =>
      if ¬ varInfo.isInitialized then
        ({ st with errors := st.errors ++
            ["Variable \x22" ++ varName ++ "\x22 is used before initialization"] },
         some varInfo.type)
      else (st, some varInfo.type)

/-- `analyzeFunctionCall` (the special `printf` case, the arity check with
its comma-bearing message, and per-argument type checks otherwise). -/
def analyzeFunctionCall (st : SState) (funcName : String) (args : List Node) :
    SState × Option String :=
  match mapGet st.functionTable funcName with
  | none =>
      if funcName = "printf" then (st, some "int")
      else
        ({ st with errors := st.errors ++
            ["Function \x22" ++ funcName ++ "\x22 is not declared"] }, none)
  | some funcInfo =>
      if args.length ≠ funcInfo.parameters.length then
        ({ st with errors := st.errors ++
            ["Function \x22" ++ funcName ++ "\x22 expects " ++
              toString funcInfo.parameters.length ++ " arguments, but got " ++
              toString args.length] }, some funcInfo.returnType)
      else
        (checkArgs st funcName funcInfo.parameters 0 args, some funcInfo.returnType)
termination_by sizeOf args + 1

/-- The per-argument type-check loop of `analyzeFunctionCall`. -/
def checkArgs (st : SState) (funcName : String) (params : List SymbolInfo)
    (i : Nat) : List Node → SState
  | [] => st
  | a :: rest =>
    let p := analyzeExpression st (some a)
    let paramType := ((params.get? i).map (fun s => s.type)).getD "undefined"
    let st2 := match p.2 with
      | some argType =>
        if argType ≠ paramType then
          { p.1 with errors := p.1.errors ++
            ["Argument " ++ toString (i + 1) ++ " of function \x22" ++
              funcName ++ "\x22 should be of type " ++ paramType ++
              ", but got " ++ argType] }
        else p.1
      | none => p.1
    checkArgs st2 funcName params (i + 1) rest
termination_by l => sizeOf l
decreasing_by
  all_goals simp_wf
  all_goals (have h : 0 < sizeOf rest := by cases rest <;> simp_arith
             omega)

/-- `analyzeUnaryExpression`. -/
def analyzeUnaryExpression (st : SState) (op : String) (arg : Option Node) :
    SState × Option String :=
  let p := analyzeExpression st arg
  match p.2 with
  | none => (p.1, none)
  | some argType =>
    if ¬ isNumericType argType then
      ({ p.1 with errors := p.1.errors ++
          ["Operator \x22" ++ op ++ "\x22 cannot be applied to type \x22" ++
            argType ++ "\x22"] }, none)
    else (p.1, some argType)
termination_by sizeOf arg + 1

end

/-- The `if (node.x) this.analyzeExpression(node.x)` guard used by the if-
and for-statement analyzers: a node analyzes as an expression (the returned
type is discarded), absence leaves the state unchanged. -/
def analyzeOptExpr (st : SState) (o : Option Node) : SState :=
  match o with
  | some e => (analyzeExpression st (some e)).1
  | none => st

/-- `analyzeReturnStatement` (not recursive, so outside the mutual
block). -/
def analyzeReturnStatement (st : SState) (e : Option Node) : SState :=
  match mapGet st.functionTable st.currentScope with
  | none =>
      { st with errors := st.errors ++ ["Return statement outside of function"] }
  | some functionInfo =>
    match e with
    | none =>
      if functionInfo.returnType ≠ "void" then
        { st with errors := st.errors ++
          ["Function \x22" ++ functionInfo.name ++
            "\x22 must return a value of type " ++ functionInfo.returnType] }
      else st
    | some ex =>
      let p := analyzeExpression st (some ex)
      match p.2 with
      | some exprType =>
        if exprType ≠ functionInfo.returnType then
          { p.1 with errors := p.1.errors ++
            ["Function \x22" ++ functionInfo.name ++ "\x22 should return " ++
              functionInfo.returnType ++ ", but got " ++ exprType] }
        else p.1
      | none => p.1

mutual

/-- `analyzeStatement`: compound statements get a fresh block scope naming
the current `Date.now()` reading. -/
def analyzeStatement (st : SState) : Option Node → SState
  | none => st
  | some stmt =>
    match stmt with
    | .declarationStatement vt vars => analyzeDeclaration st vt vars
    | .expressionStatement e => (analyzeExpression st e).1
    | .returnStatement e => analyzeReturnStatement st e
    | .ifStatement c t e => analyzeIfStatement st c t e
    | .forStatement i c inc b => analyzeForStatement st i c inc b
    | .compoundStatement body =>
      let oldScope := st.currentScope
      let d := dateNow st
      let st1 := { d.2 with currentScope :=
        oldScope ++ ".block" ++ toString d.1 }
      let st2 := analyzeStmtList st1 body
      { st2 with currentScope := oldScope }
    | _ => st
termination_by o => sizeOf o

/-- The loop of `analyzeCompoundStatement` (`!node.body` never holds on the
compound nodes this parser builds). -/
def analyzeStmtList (st : SState) : List Node → SState
  | [] => st
  | stmt :: rest => analyzeStmtList (analyzeStatement st (some stmt)) rest
termination_by l => sizeOf l
decreasing_by
  all_goals simp_wf
  all_goals (have h : 0 < sizeOf rest := by cases rest <;> simp_arith
             omega)

/-- `analyzeDeclaration`: redeclaration in the current scope is reported,
otherwise the symbol is added; an initializer is then type-checked either
way.  Non-declarator entries never occur in this parser's lists. -/
def analyzeDeclaration (st : SState) (vt : String) : List Node → SState
  | [] => st
  | v :: rest =>
    match v with
    | .variableDeclarator nm declInit =>
      let varType := convertToSymbolType vt
      let st1 :=
        if isSymbolDeclaredInCurrentScope st nm then
          { st with errors := st.errors ++
            ["Variable \x22" ++ nm ++ "\x22 is already declared in this scope"] }
        else
          addSymbol st { name := nm, type := varType,
                         scope := st.currentScope,
                         isInitialized := declInit.isSome }
      let st2 := match declInit with
        | some ini =>
          let p := analyzeExpression st1 (some ini)
          (match p.2 with
           | some initializerType =>
             if initializerType ≠ varType then
               { p.1 with errors := p.1.errors ++
                 ["Cannot initialize variable of type \x22" ++ varType ++
                   "\x22 with value of type \x22" ++ initializerType ++ "\x22"] }
             else p.1
           | none => p.1)
        | none => st1
      analyzeDeclaration st2 vt rest
    | _ => analyzeDeclaration st vt rest
termination_by l => sizeOf l
decreasing_by
  all_goals simp_wf

/-- `analyzeIfStatement` (the `if (node.thenStatement)` / `elseStatement`
guards coincide with `analyzeStatement`'s none case). -/
def analyzeIfStatement (st : SState) (c t e : Option Node) : SState :=
  let st1 := analyzeOptExpr st c
  let st2 := analyzeStatement st1 t
  analyzeStatement st2 e
termination_by sizeOf c + sizeOf t + sizeOf e + 1

/-- The initialization of a for statement: a declaration is analyzed as a
declaration, anything else (present) as an expression. -/
def analyzeForInit (st : SState) (i : Option Node) : SState :=
  match i with
  | none => st
  | some ini =>
    match ini with
    | .declarationStatement vt vars => analyzeDeclaration st vt vars
    | _ => (analyzeExpression st (some ini)).1

/-- `analyzeForStatement`: a fresh loop scope naming the current
`Date.now()` reading. -/
def analyzeForStatement (st : SState) (i c inc b : Option Node) : SState :=
  let oldScope := st.currentScope
  let d := dateNow st
  let st1 := { d.2 with currentScope := oldScope ++ ".for" ++ toString d.1 }
  let st2 := analyzeForInit st1 i
  let st3 := analyzeOptExpr st2 c
  let st4 := analyzeOptExpr st3 inc
  let st5 := analyzeStatement st4 b
  { st5 with currentScope := oldScope }
termination_by sizeOf i + sizeOf c + sizeOf inc + sizeOf b + 1

end

/-- The parameter loop of `analyzeFunction`: each parameter is registered
in the function's scope (initialized) and collected for the signature. -/
def addParams (st : SState) (scope : String) :
    List Node → SState × List SymbolInfo
  | [] => (st, [])
  | p :: rest =>
    let info : SymbolInfo := match p with
      | .parameter pt pn =>
        { name := pn, type := convertToSymbolType pt,
          scope := scope, isInitialized := true }
      | _ =>
        { name := "undefined", type := "int",
          scope := scope, isInitialized := true }
    let st1 := addSymbol st info
    let q := addParams st1 scope rest
    (q.1, info :: q.2)

/-- `analyzeFunction`: enters the function scope, registers parameters and
the signature, analyzes the body, checks the structural-return rule for
non-void functions, and restores the global scope. -/
def analyzeFunction (st : SState) (rt nm : String) (paramNodes : List Node)
    (body : Node) : SState :=
  let returnType := convertToSymbolType rt
  let st0 := { st with currentScope := nm }
  let pq := addParams st0 nm paramNodes
  let fi : FunctionInfo :=
    { name := nm, returnType := returnType, parameters := pq.2,
      isDefined := true }
  let st1 := { pq.1 with functionTable := mapSetR pq.1.functionTable nm fi }
  let st2 := match body with
    | .compoundStatement stmts => analyzeStmtList st1 stmts
    | _ => st1
  let st3 :=
    if returnType ≠ "void" ∧ ¬ hasReturnStatement body then
      { st2 with errors := st2.errors ++
        ["Function \x22" ++ nm ++ "\x22 must return a value of type " ++
          returnType] }
    else st2
  { st3 with currentScope := "global" }

/-- `analyzeProgram`. -/
def analyzeProgram (st : SState) (body : List Node) : SState :=
  body.foldl (fun s node =>
    match node with
    | .functionDeclaration rt nm ps b => analyzeFunction s rt nm ps b
    | _ => s) st

/-- `analyze`: resets every table and diagnostic, then processes a Program
node; the returned object exposes the symbol table, the function table and
the errors. -/
def analyze (st : SState) (ast : Option Node) : SState :=
  match ast with
  | some (.program body) => analyzeProgram (reset st) body
  | _ => reset st

/-- `int main() \x7b for (int i;;) ; \x7d` — a program whose analysis reads
`Date.now()` to name the for-loop scope. -/
def c5Ast : Node := .program
  [.functionDeclaration "int" "main" []
    (.compoundStatement
      [.forStatement
        (some (.declarationStatement "int" [.variableDeclarator "i" none]))
        none none none])]

/-- A fresh analyzer at clock position 0, with the ambient clock returning
the reading's index (time advances between `Date.now()` calls). -/
def c5S0 : SState :=
  { symbolTable := [], functionTable := [], currentScope := "global",
    errors := [], clock := fun n => (n : Int), clockPos := 0 }

/-- An analyzer holding stale tables from earlier work. -/
def c5S1 : SState :=
  { symbolTable := [("stale", [])],
    functionTable := [("stale",
      { name := "stale", returnType := "void", parameters := [],
        isDefined := false })],
    currentScope := "stale", errors := ["stale"],
    clock := fun n => (n : Int), clockPos := 7 }

/-- A fresh analyzer at the same clock position as `c5S1`. -/
def c5S2 : SState :=
  { symbolTable := [], functionTable := [], currentScope := "global",
    errors := [], clock := fun n => (n : Int), clockPos := 7 }

end Sem1

namespace TacEval

/-! A straight-line evaluation semantics for the TAC fragment the unary
lowering emits, used to state what value a lowered expression's result name
denotes: a numeral operand denotes itself, any other operand is read from
the environment. -/

/-- Value of an operand under an environment. -/
def evalOperand (env : String → Int) : Option String → Int
  | none => 0
  | some s => if jsNumericString s then jsToInt s else env s

/-- Write the destination operand, if any. -/
def updateEnv (env : String → Int) (r : Option String) (v : Int) :
    String → Int :=
  match r with
  | some n => fun k => if k = n then v else env k
  | none => env

/-- Effect of one arithmetic/copy instruction. -/
def execInstr (env : String → Int) (i : TACInstruction) : String → Int :=
  match i.op with
  | "=" => updateEnv env i.result (evalOperand env i.arg1)
  | "+" => updateEnv env i.result (evalOperand env i.arg1 + evalOperand env i.arg2)
  | "-" => updateEnv env i.result (evalOperand env i.arg1 - evalOperand env i.arg2)
  | "*" => updateEnv env i.result (evalOperand env i.arg1 * evalOperand env i.arg2)
  | _ => env

/-- Effect of a straight-line instruction sequence. -/
def execList (env : String → Int) : List TACInstruction → (String → Int)
  | [] => env
  | i :: rest => execList (execInstr env i) rest

end TacEval

namespace Lexer

/-! Embedding of `tokenize` and its helpers.  Text is the string's
character list; the per-line `while` loop over the index `i` becomes
recursion on the remaining suffix of the line.  JS `\s` is modelled by its
ASCII part, which covers every character this pipeline's inputs use. -/

/-- The ASCII part of `\s`. -/
def jsSpace (c : Char) : Bool :=
  c = ' ' || c = '\t' || c = '\n' || c = '\r' || c = '\x0b' || c = '\x0c'

/-- `\w`, i.e. `[a-zA-Z0-9_]`. -/
def wordChar (c : Char) : Bool :=
  ('a' ≤ c && c ≤ 'z') || ('A' ≤ c && c ≤ 'Z') ||
  ('0' ≤ c && c ≤ '9') || c = '_'

/-- The single-character operator class `[-+*/%=<>&^|!~]` of
`tokenRegex.OPERATOR`. -/
def opChar (c : Char) : Bool :=
  c = '-' || c = '+' || c = '*' || c = '/' || c = '%' || c = '=' ||
  c = '<' || c = '>' || c = '&' || c = '^' || c = '|' || c = '!' || c = '~'

/-- `tokenRegex.OPERATOR.test`: the pattern is anchored, so the test asks
whether the text begins with one of the alternatives; every two-character
alternative begins with a character of the single-character class, so the
test depends only on the first character. -/
def opTest (l : List Char) : Bool :=
  match l with
  | c :: _ => opChar c
  | [] => false

/-- `tokenRegex.SEPARATOR`, `^[;,.:]`, on one character. -/
def sepChar (c : Char) : Bool :=
  c = ';' || c = ',' || c = '.' || c = ':'

/-- `[0-9A-Fa-f]`. -/
def hexDigit (c : Char) : Bool :=
  c.isDigit || ('a' ≤ c && c ≤ 'f') || ('A' ≤ c && c ≤ 'F')

/-- The keyword alternatives of `tokenRegex.KEYWORD`. -/
def keywords : List String :=
  ["int", "char", "float", "double", "if", "else", "for", "while",
   "return", "void", "include", "define"]

/-- `tokenRegex.NUMBER.test` on a lexeme of word characters: `\b` holds
only at the lexeme's ends, so the unanchored pattern must span the whole
lexeme, and a word lexeme contains no `.`, `+` or `-`, leaving the forms
`0x[0-9A-Fa-f]+` and `\d+([eE]\d+)?`. -/
def numberShape (l : List Char) : Bool :=
  match l with
  | '0' :: 'x' :: rest => rest ≠ [] && rest.all hexDigit
  | _ =>
    let rest := l.dropWhile Char.isDigit
    l.takeWhile Char.isDigit ≠ [] &&
      (match rest with
       | [] => true
       | e :: ds2 => (e = 'e' || e = 'E') && ds2 ≠ [] &&
           ds2.all Char.isDigit)

/-- `classifyLexeme`, on the nonempty word-character lexemes `tokenize`
calls it on (the `PREPROCESSOR`, `STRING_LITERAL`, `OPERATOR`, `SEPARATOR`,
bracket and `COMMENT` patterns each need a character no word lexeme
contains; on a word lexeme the unanchored `KEYWORD` test holds exactly for
the keywords themselves and the `IDENTIFIER` test exactly when the first
character is a letter or underscore).  The value is the lexeme itself in
every branch. -/
def classifyLexeme (l : List Char) : Token :=
  if keywords.contains (⟨l⟩ : String) then
    { type := "KEYWORD", value := ⟨l⟩ }
  else if (match l with | c :: _ => c.isAlpha || c = '_' | [] => false) then
    { type := "IDENTIFIER", value := ⟨l⟩ }
  else if numberShape l then
    { type := "NUMBER", value := ⟨l⟩ }
  else
    { type := "UNDEFINED", value := ⟨l⟩ }

/-- The string-literal pattern after its opening quote: an escape consumes
two characters, an unescaped quote closes, any other character is consumed;
reaching the end without a closing quote fails the match.  Returns the
consumed body and the remainder after the closing quote. -/
def strLitScan : List Char → Option (List Char × List Char)
  | [] => none
  | '"' :: rest => some ([], rest)
  | '\\' :: [] => none
  | '\\' :: d :: rest =>
    (strLitScan rest).map (fun p => ('\\' :: d :: p.1, p.2))
  | c :: rest =>
    (strLitScan rest).map (fun p => (c :: p.1, p.2))

/-- Split at the first `/*`: the text before it and the text after it. -/
def splitAtOpen : List Char → Option (List Char × List Char)
  | '/' :: '*' :: rest => some ([], rest)
  | c :: rest => (splitAtOpen rest).map (fun p => (c :: p.1, p.2))
  | [] => none

/-- Split at the first `*/`: the text before it and the text after it. -/
def splitAtClose : List Char → Option (List Char × List Char)
  | '*' :: '/' :: rest => some ([], rest)
  | c :: rest => (splitAtClose rest).map (fun p => (c :: p.1, p.2))
  | [] => none

/-- The block-comment `replace` pass: each lazily matched `/* ... */` is
pushed as a COMMENT token — all of them before any line token — and
replaced in the text by a run of spaces of the same length; an opener with
no later closer matches nothing.  One fuel unit per match; the caller
passes the text length, which bounds the number of matches. -/
def stripBlockComments : Nat → List Char → List Token × List Char
  | 0, l => ([], l)
  | fuel+1, l =>
    match splitAtOpen l with
    | none => ([], l)
    | some (before, afterOpen) =>
      match splitAtClose afterOpen with
      | none => ([], l)
      | some (inside, afterClose) =>
        let comment := '/' :: '*' :: (inside ++ ['*', '/'])
        let p := stripBlockComments fuel afterClose
        (({ type := "COMMENT", value := ⟨comment⟩ } : Token) :: p.1,
         before ++ List.replicate comment.length ' ' ++ p.2)

/-- One iteration of the per-line `while` loop, at the character `c` with
the rest of the line after it; `recur` continues the loop on the remaining
suffix of the line. -/
def scanStep (recur : List Char → List Token) (c : Char)
    (rest : List Char) : List Token :=
  if jsSpace c then recur rest
  else if c = '/' ∧ rest.head? = some '/' then
    [{ type := "COMMENT", value := ⟨c :: rest⟩ }]
  else if c = '"' then
    match strLitScan rest with
    | some (content, rem) =>
      { type := "STRING_LITERAL", value := ⟨'"' :: content ++ ['"']⟩ } ::
        recur rem
    | none =>
      { type := "UNDEFINED", value := "\x22" } :: recur rest
  else if opTest ((c :: rest).take 2) then
    { type := "OPERATOR", value := ⟨(c :: rest).take 2⟩ } ::
      recur (rest.drop 1)
  else if opTest [c] then
    { type := "OPERATOR", value := ⟨[c]⟩ } :: recur rest
  else if sepChar c then
    { type := "SEPARATOR", value := ⟨[c]⟩ } :: recur rest
  else if c = '(' then
    { type := "OPEN_PAREN", value := ⟨[c]⟩ } :: recur rest
  else if c = ')' then
    { type := "CLOSE_PAREN", value := ⟨[c]⟩ } :: recur rest
  else if c = '\x7b' then
    { type := "OPEN_BRACE", value := ⟨[c]⟩ } :: recur rest
  else if c = '\x7d' then
    { type := "CLOSE_BRACE", value := ⟨[c]⟩ } :: recur rest
  else if (c :: rest).takeWhile wordChar ≠ [] then
    classifyLexeme ((c :: rest).takeWhile wordChar) ::
      recur ((c :: rest).dropWhile wordChar)
  else
    { type := "UNDEFINED", value := ⟨[c]⟩ } :: recur rest

/-- The per-line `while` loop, one recursive call per iteration on the
remaining suffix; every iteration consumes at least one character, so the
line length is enough fuel. -/
def scanLine : Nat → List Char → List Token
  | 0, _ => []
  | _, [] => []
  | fuel+1, c :: rest => scanStep (scanLine fuel) c rest

/-- `/^\s*#/.test(line)`. -/
def preprocLine (l : List Char) : Bool :=
  match l.dropWhile jsSpace with
  | '#' :: _ => true
  | _ => false

/-- `line.trim()`. -/
def jsTrim (l : List Char) : List Char :=
  ((l.dropWhile jsSpace).reverse.dropWhile jsSpace).reverse

/-- `inputCode.split()` on the newline character. -/
def splitLines : List Char → List (List Char)
  | [] => [[]]
  | c :: rest =>
    if c = '\n' then [] :: splitLines rest
    else
      match splitLines rest with
      | l :: ls => (c :: l) :: ls
      | [] => [[c]]

/-- One line of the main loop: a preprocessor line is pushed whole,
trimmed, and the rest of the line skipped; any other line is scanned token
by token. -/
def lineTokens (line : List Char) : List Token :=
  if preprocLine line then
    [{ type := "PREPROCESSOR", value := ⟨jsTrim line⟩ }]
  else scanLine line.length line

/-- `tokenize`: block comments first (tokenized and blanked out), then each
line of the remaining text. -/
def tokenize (input : String) : List Token :=
  let p := stripBlockComments input.data.length input.data
  p.1 ++ ((splitLines p.2).map lineTokens).flatten

end Lexer

namespace Parse

/-! Embedding of the recursive-descent parser.  The module-level `current`
index is threaded explicitly: every function takes the token list and the
current index and returns the produced value together with the new index.
JS `null` results become `none` of `Option Node`, the ad hoc
`\x7b error: ... \x7d` objects become `Node.errorNode`.  The parser's loops
do not all terminate (e.g. the argument loop spins forever when
`parseExpression` returns `null` on a token that is neither `,` nor `)`),
so every function consumes one unit of fuel per call and per loop
iteration, returning `none` when the fuel — one unit per JS call — runs
out; any sufficiently large fuel reproduces a terminating JS run. -/

/-- `tokens[i].type`, `undefined` out of bounds. -/
def tokType (tokens : List Token) (i : Nat) : Option String :=
  (tokens[i]?).map (fun t => t.type)

/-- `tokens[i].value`, `undefined` out of bounds. -/
def tokValue (tokens : List Token) (i : Nat) : Option String :=
  (tokens[i]?).map (fun t => t.value)

/-- `isTypeSpecifier`. -/
def isTypeSpecifier (t : Token) : Bool :=
  t.type = "KEYWORD" &&
    ["int", "char", "float", "double", "void"].contains t.value

/-- `current < tokens.length && tokens[current].type === 'SEPARATOR' &&
tokens[current].value === ';'`. -/
def semiAt (tokens : List Token) (i : Nat) : Bool :=
  match tokens[i]? with
  | some t => t.type = "SEPARATOR" && t.value = ";"
  | none => false

/-- The interpolated description in the if-condition error message. -/
def gotDesc (tokens : List Token) (i : Nat) : String :=
  match tokens[i]? with
  | some t => t.type ++ " \x27" ++ t.value ++ "\x27"
  | none => "end of input"

/-- `x && x.error` on a nullable node. -/
def isErrNode : Option Node → Bool
  | some (.errorNode _) => true
  | _ => false

mutual

/-- `parseExpression`. -/
def parseExpression : Nat → List Token → Nat → Option (Option Node × Nat)
  | 0, _, _ => none
  | fuel+1, tokens, cur => parseAssignment fuel tokens cur
termination_by structural fuel _ _ => fuel

/-- `parseAssignment` (right recursion on `=`). -/
def parseAssignment : Nat → List Token → Nat → Option (Option Node × Nat)
  | 0, _, _ => none
  | fuel+1, tokens, cur =>
    match parseEquality fuel tokens cur with
    | none => none
    | some (left, cur1) =>
      match tokens[cur1]? with
      | some t =>
        if t.value = "=" then
          match parseAssignment fuel tokens (cur1 + 1) with
          | none => none
          | some (right, cur2) =>
            some (some (.assignmentExpression t.value left right), cur2)
        else some (left, cur1)
      | none => some (left, cur1)
termination_by structural fuel _ _ => fuel

/-- `parseEquality`. -/
def parseEquality : Nat → List Token → Nat → Option (Option Node × Nat)
  | 0, _, _ => none
  | fuel+1, tokens, cur =>
    match parseRelational fuel tokens cur with
    | none => none
    | some (left, cur1) => eqLoop fuel tokens cur1 left
termination_by structural fuel _ _ => fuel

/-- The `==`/`!=` loop of `parseEquality`. -/
def eqLoop : Nat → List Token → Nat → Option Node →
    Option (Option Node × Nat)
  | 0, _, _, _ => none
  | fuel+1, tokens, cur, left =>
    match tokens[cur]? with
    | some t =>
      if t.type = "OPERATOR" && (t.value = "==" || t.value = "!=") then
        match parseRelational fuel tokens (cur + 1) with
        | none => none
        | some (right, cur2) =>
          eqLoop fuel tokens cur2 (some (.binaryExpression t.value left right))
      else some (left, cur)
    | none => some (left, cur)
termination_by structural fuel _ _ _ => fuel

/-- `parseRelational`. -/
def parseRelational : Nat → List Token → Nat → Option (Option Node × Nat)
  | 0, _, _ => none
  | fuel+1, tokens, cur =>
    match parseAdditive fuel tokens cur with
    | none => none
    | some (left, cur1) => relLoop fuel tokens cur1 left
termination_by structural fuel _ _ => fuel

/-- The `<`/`>`/`<=`/`>=` loop of `parseRelational`. -/
def relLoop : Nat → List Token → Nat → Option Node →
    Option (Option Node × Nat)
  | 0, _, _, _ => none
  | fuel+1, tokens, cur, left =>
    match tokens[cur]? with
    | some t =>
      if t.type = "OPERATOR" &&
          (t.value = "<" || t.value = ">" || t.value = "<=" ||
            t.value = ">=") then
        match parseAdditive fuel tokens (cur + 1) with
        | none => none
        | some (right, cur2) =>
          relLoop fuel tokens cur2 (some (.binaryExpression t.value left right))
      else some (left, cur)
    | none => some (left, cur)
termination_by structural fuel _ _ _ => fuel

/-- `parseAdditive`. -/
def parseAdditive : Nat → List Token → Nat → Option (Option Node × Nat)
  | 0, _, _ => none
  | fuel+1, tokens, cur =>
    match parseMultiplicative fuel tokens cur with
    | none => none
    | some (left, cur1) => addLoop fuel tokens cur1 left
termination_by structural fuel _ _ => fuel

/-- The `+`/`-` loop of `parseAdditive`. -/
def addLoop : Nat → List Token → Nat → Option Node →
    Option (Option Node × Nat)
  | 0, _, _, _ => none
  | fuel+1, tokens, cur, left =>
    match tokens[cur]? with
    | some t =>
      if t.type = "OPERATOR" && (t.value = "+" || t.value = "-") then
        match parseMultiplicative fuel tokens (cur + 1) with
        | none => none
        | some (right, cur2) =>
          addLoop fuel tokens cur2 (some (.binaryExpression t.value left right))
      else some (left, cur)
    | none => some (left, cur)
termination_by structural fuel _ _ _ => fuel

/-- `parseMultiplicative`. -/
def parseMultiplicative : Nat → List Token → Nat →
    Option (Option Node × Nat)
  | 0, _, _ => none
  | fuel+1, tokens, cur =>
    match parseUnary fuel tokens cur with
    | none => none
    | some (left, cur1) => mulLoop fuel tokens cur1 left
termination_by structural fuel _ _ => fuel

/-- The `*`/`/`/`%` loop of `parseMultiplicative`. -/
def mulLoop : Nat → List Token → Nat → Option Node →
    Option (Option Node × Nat)
  | 0, _, _, _ => none
  | fuel+1, tokens, cur, left =>
    match tokens[cur]? with
    | some t =>
      if t.type = "OPERATOR" &&
          (t.value = "*" || t.value = "/" || t.value = "%") then
        match parseUnary fuel tokens (cur + 1) with
        | none => none
        | some (right, cur2) =>
          mulLoop fuel tokens cur2 (some (.binaryExpression t.value left right))
      else some (left, cur)
    | none => some (left, cur)
termination_by structural fuel _ _ _ => fuel

/-- `parseUnary`: prefix `++`/`--`. -/
def parseUnary : Nat → List Token → Nat → Option (Option Node × Nat)
  | 0, _, _ => none
  | fuel+1, tokens, cur =>
    match tokens[cur]? with
    | some t =>
      if t.value = "++" || t.value = "--" then
        match parseUnary fuel tokens (cur + 1) with
        | none => none
        | some (argument, cur2) =>
          some (some (.preExpr t.value argument), cur2)
      else parsePostfixE fuel tokens cur
    | none => parsePostfixE fuel tokens cur
termination_by structural fuel _ _ => fuel

/-- `parsePostfix`. -/
def parsePostfixE : Nat → List Token → Nat → Option (Option Node × Nat)
  | 0, _, _ => none
  | fuel+1, tokens, cur =>
    match parsePrimary fuel tokens cur with
    | none => none
    | some (node, cur1) => postfixLoop fuel tokens cur1 node
termination_by structural fuel _ _ => fuel

/-- The postfix `++`/`--` loop. -/
def postfixLoop : Nat → List Token → Nat → Option Node →
    Option (Option Node × Nat)
  | 0, _, _, _ => none
  | fuel+1, tokens, cur, node =>
    match tokens[cur]? with
    | some t =>
      if t.value = "++" || t.value = "--" then
        postfixLoop fuel tokens (cur + 1) (some (.postExpr t.value node))
      else some (node, cur)
    | none => some (node, cur)
termination_by structural fuel _ _ _ => fuel

/-- `parsePrimary`: literals, identifiers and calls, parenthesized
expressions; anything else is `null` without consuming. -/
def parsePrimary : Nat → List Token → Nat → Option (Option Node × Nat)
  | 0, _, _ => none
  | fuel+1, tokens, cur =>
    match tokens[cur]? with
    | none => some (none, cur)
    | some token =>
      if token.type = "NUMBER" || token.type = "STRING_LITERAL" then
        some (some (.literal token.value), cur + 1)
      else if token.type = "IDENTIFIER" ||
          (token.type = "KEYWORD" && !isTypeSpecifier token) then
        if tokType tokens (cur + 1) = some "OPEN_PAREN" then
          match argsLoop fuel tokens (cur + 2) [] with
          | none => none
          | some (args, cur2) =>
            let cur3 := if tokType tokens cur2 = some "CLOSE_PAREN" then
              cur2 + 1 else cur2
            some (some (.functionCall token.value args), cur3)
        else some (some (.identifier token.value), cur + 1)
      else if token.type = "OPEN_PAREN" then
        match parseExpression fuel tokens (cur + 1) with
        | none => none
        | some (expr, cur2) =>
          let cur3 := if tokType tokens cur2 = some "CLOSE_PAREN" then
            cur2 + 1 else cur2
          some (expr, cur3)
      else some (none, cur)
termination_by structural fuel _ _ => fuel

/-- The argument loop of a function call (it can spin without consuming
when `parseExpression` yields `null` before a token that is neither `,`
nor `)` — then the fuel runs out, as the JS loop never ends). -/
def argsLoop : Nat → List Token → Nat → List Node →
    Option (List Node × Nat)
  | 0, _, _, _ => none
  | fuel+1, tokens, cur, args =>
    match tokens[cur]? with
    | none => some (args, cur)
    | some t =>
      if t.type = "CLOSE_PAREN" then some (args, cur)
      else
        match parseExpression fuel tokens cur with
        | none => none
        | some (arg, cur2) =>
          let args2 := match arg with
            | some a => args ++ [a]
            | none => args
          let cur3 := if tokValue tokens cur2 = some "," then cur2 + 1
            else cur2
          argsLoop fuel tokens cur3 args2
termination_by structural fuel _ _ _ => fuel

end

mutual

/-- `parseStatement` (`null` for out-of-range and comments). -/
def parseStatement : Nat → List Token → Nat → Option (Option Node × Nat)
  | 0, _, _ => none
  | fuel+1, tokens, cur =>
    match tokens[cur]? with
    | none => some (none, cur)
    | some token =>
      if token.type = "COMMENT" then some (none, cur + 1)
      else if token.type = "KEYWORD" && token.value = "return" then
        match parseReturnStatement fuel tokens cur with
        | none => none
        | some (n, cur2) => some (some n, cur2)
      else if token.type = "KEYWORD" && token.value = "if" then
        match parseIfStatement fuel tokens cur with
        | none => none
        | some (n, cur2) => some (some n, cur2)
      else if token.type = "KEYWORD" && token.value = "for" then
        match parseForStatement fuel tokens cur with
        | none => none
        | some (n, cur2) => some (some n, cur2)
      else if isTypeSpecifier token then
        match parseDeclaration fuel tokens cur true with
        | none => none
        | some (n, cur2) => some (some n, cur2)
      else if token.type = "OPEN_BRACE" then
        match parseCompoundStatement fuel tokens cur with
        | none => none
        | some (n, cur2) => some (some n, cur2)
      else
        match parseExpressionStatement fuel tokens cur with
        | none => none
        | some (n, cur2) => some (some n, cur2)
termination_by structural fuel _ _ => fuel

/-- `parseReturnStatement` (entered on the `return` keyword). -/
def parseReturnStatement : Nat → List Token → Nat → Option (Node × Nat)
  | 0, _, _ => none
  | fuel+1, tokens, cur =>
    match parseExpression fuel tokens (cur + 1) with
    | none => none
    | some (expr, cur1) =>
      let cur2 := if semiAt tokens cur1 then cur1 + 1 else cur1
      some (.returnStatement expr, cur2)

/-- `parseIfStatement` (entered on the `if` keyword). -/
def parseIfStatement : Nat → List Token → Nat → Option (Node × Nat)
  | 0, _, _ => none
  | fuel+1, tokens, cur =>
    if tokType tokens (cur + 1) ≠ some "OPEN_PAREN" then
      some (.errorNode "Expected \x27(\x27 after if", cur + 1)
    else
      match parseExpression fuel tokens (cur + 2) with
      | none => none
      | some (condition, cur2) =>
        match condition with
        | some (.errorNode m) => some (.errorNode m, cur2)
        | _ =>
          let cur3 := if cur2 = cur + 2 then cur2 + 1 else cur2
          if tokType tokens cur3 ≠ some "CLOSE_PAREN" then
            some (.errorNode ("Expected \x27)\x27 after if condition, got: " ++
              gotDesc tokens cur3), cur3)
          else
            match parseStatement fuel tokens (cur3 + 1) with
            | none => none
            | some (thenStmt, cur4) =>
              if tokType tokens cur4 = some "KEYWORD" ∧
                  tokValue tokens cur4 = some "else" then
                match parseStatement fuel tokens (cur4 + 1) with
                | none => none
                | some (elseStmt, cur5) =>
                  some (.ifStatement condition thenStmt elseStmt, cur5)
              else some (.ifStatement condition thenStmt none, cur4)
termination_by structural fuel _ _ => fuel

/-- `parseForStatement` (entered on the `for` keyword). -/
def parseForStatement : Nat → List Token → Nat → Option (Node × Nat)
  | 0, _, _ => none
  | fuel+1, tokens, cur =>
    if tokType tokens (cur + 1) ≠ some "OPEN_PAREN" then
      some (.errorNode "Expected \x27(\x27 after for", cur + 1)
    else
      let iniStep := match tokens[cur + 2]? with
        | some t =>
          if isTypeSpecifier t then
            match parseDeclaration fuel tokens (cur + 2) false with
            | none => none
            | some (n, c2) => some (some n, c2)
          else parseExpression fuel tokens (cur + 2)
        | none => parseExpression fuel tokens (cur + 2)
      match iniStep with
      | none => none
      | some (ini, cur3) =>
        let cur4 := if semiAt tokens cur3 then cur3 + 1 else cur3
        match parseExpression fuel tokens cur4 with
        | none => none
        | some (condition, cur5) =>
          let cur6 := if semiAt tokens cur5 then cur5 + 1 else cur5
          match parseExpression fuel tokens cur6 with
          | none => none
          | some (increment, cur7) =>
            if tokType tokens cur7 ≠ some "CLOSE_PAREN" then
              some (.errorNode "Expected \x27)\x27 after for increment", cur7)
            else
              match parseStatement fuel tokens (cur7 + 1) with
              | none => none
              | some (body, cur8) =>
                some (.forStatement ini condition increment body, cur8)
termination_by structural fuel _ _ => fuel

/-- `parseDeclaration` (entered on a type specifier). -/
def parseDeclaration : Nat → List Token → Nat → Bool → Option (Node × Nat)
  | 0, _, _, _ => none
  | fuel+1, tokens, cur, expectSemicolon =>
    let varType := (tokValue tokens cur).getD ""
    match declLoop fuel tokens (cur + 1) expectSemicolon [] with
    | none => none
    | some (vars, cur2) =>
      some (.declarationStatement varType vars, cur2)

/-- The declarator loop of `parseDeclaration`. -/
def declLoop : Nat → List Token → Nat → Bool → List Node →
    Option (List Node × Nat)
  | 0, _, _, _, _ => none
  | fuel+1, tokens, cur, expectSemicolon, acc =>
    if tokType tokens cur ≠ some "IDENTIFIER" then some (acc, cur)
    else
      let varName := (tokValue tokens cur).getD ""
      let step := if tokValue tokens (cur + 1) = some "=" then
          parseExpression fuel tokens (cur + 2)
        else some (none, cur + 1)
      match step with
      | none => none
      | some (ini, cur2) =>
        let acc2 := acc ++ [Node.variableDeclarator varName ini]
        match tokens[cur2]? with
        | none => some (acc2, cur2)
        | some t2 =>
          if t2.value = "," then
            declLoop fuel tokens (cur2 + 1) expectSemicolon acc2
          else if expectSemicolon && t2.type = "SEPARATOR" &&
              t2.value = ";" then
            some (acc2, cur2 + 1)
          else declLoop fuel tokens cur2 expectSemicolon acc2
termination_by structural fuel _ _ _ _ => fuel

/-- `parseExpressionStatement`. -/
def parseExpressionStatement : Nat → List Token → Nat →
    Option (Node × Nat)
  | 0, _, _ => none
  | fuel+1, tokens, cur =>
    match parseExpression fuel tokens cur with
    | none => none
    | some (expr, cur1) =>
      let cur2 := if semiAt tokens cur1 then cur1 + 1 else cur1
      some (.expressionStatement expr, cur2)

/-- `parseCompoundStatement` (on the paths the parser takes it is always
entered in bounds; the embedding's out-of-bounds read also fails the
open-brace test). -/
def parseCompoundStatement : Nat → List Token → Nat → Option (Node × Nat)
  | 0, _, _ => none
  | fuel+1, tokens, cur =>
    if tokType tokens cur ≠ some "OPEN_BRACE" then
      some (.errorNode "Expected \x27\x7b\x27 at beginning of compound statement",
        cur)
    else compoundLoop fuel tokens (cur + 1) []
termination_by structural fuel _ _ => fuel

/-- The statement loop of `parseCompoundStatement`, including the
close-brace check after it: a statement error is propagated as the return
value, and an iteration that consumed nothing advances by one token. -/
def compoundLoop : Nat → List Token → Nat → List Node →
    Option (Node × Nat)
  | 0, _, _, _ => none
  | fuel+1, tokens, cur, acc =>
    match tokens[cur]? with
    | none =>
      some (.errorNode "Expected \x27\x7d\x27 at end of compound statement", cur)
    | some t =>
      if t.type = "CLOSE_BRACE" then some (.compoundStatement acc, cur + 1)
      else
        match parseStatement fuel tokens cur with
        | none => none
        | some (stmt, cur2) =>
          match stmt with
          | some (.errorNode m) => some (.errorNode m, cur2)
          | some s =>
            let cur3 := if cur2 = cur then cur2 + 1 else cur2
            compoundLoop fuel tokens cur3 (acc ++ [s])
          | none =>
            let cur3 := if cur2 = cur then cur2 + 1 else cur2
            compoundLoop fuel tokens cur3 acc
termination_by structural fuel _ _ _ => fuel

end

/-- The parameter loop of `parseFunctionDefinition`; a `none` list reports
that the loop ran off the end of the input (the error case checked right
after it). -/
def paramsLoop : Nat → List Token → Nat → List Node →
    Option (Option (List Node) × Nat)
  | 0, _, _, _ => none
  | fuel+1, tokens, cur, acc =>
    match tokens[cur]? with
    | none => some (none, cur)
    | some t =>
      if t.value = ")" then some (some acc, cur)
      else if t.value = "," then paramsLoop fuel tokens (cur + 1) acc
      else if isTypeSpecifier t then
        let paramName := (tokValue tokens (cur + 1)).getD "<missing id>"
        paramsLoop fuel tokens (cur + 2) (acc ++ [.parameter t.value paramName])
      else paramsLoop fuel tokens (cur + 1) acc

/-- `parseFunctionDefinition` (entered on a type specifier). -/
def parseFunctionDefinition (fuel : Nat) (tokens : List Token)
    (cur : Nat) : Option (Node × Nat) :=
  match fuel with
  | 0 => none
  | fuel+1 =>
    let returnType := (tokValue tokens cur).getD ""
    if tokType tokens (cur + 1) ≠ some "IDENTIFIER" then
      some (.errorNode "Expected function name", cur + 1)
    else
      let funcName := (tokValue tokens (cur + 1)).getD ""
      if tokType tokens (cur + 2) ≠ some "OPEN_PAREN" then
        some (.errorNode "Expected \x27(\x27 after function name", cur + 2)
      else
        match paramsLoop fuel tokens (cur + 3) [] with
        | none => none
        | some (none, cur3) =>
          some (.errorNode
            "Unexpected end of input while parsing function parameters", cur3)
        | some (some parameters, cur3) =>
          if tokType tokens (cur3 + 1) ≠ some "OPEN_BRACE" then
            some (.errorNode "Expected \x27\x7b\x27 at beginning of function body",
              cur3 + 1)
          else
            match parseCompoundStatement fuel tokens (cur3 + 1) with
            | none => none
            | some (bodyNode, cur4) =>
              some (.functionDeclaration returnType funcName parameters
                bodyNode, cur4)

/-- The whole-program loop of `parseProgram`: comments are skipped,
preprocessor tokens become directive nodes, a type specifier starts a
function definition whose result — a declaration or an error object, both
truthy — is pushed into the body, and anything else is skipped; the loop
can only finish by returning a Program node. -/
def programLoop : Nat → List Token → Nat → List Node → Option Node
  | 0, _, _, _ => none
  | fuel+1, tokens, cur, body =>
    match tokens[cur]? with
    | none => some (.program body)
    | some token =>
      if token.type = "COMMENT" then programLoop fuel tokens (cur + 1) body
      else if token.type = "PREPROCESSOR" then
        programLoop fuel tokens (cur + 1)
          (body ++ [.preDirective ⟨Lexer.jsTrim token.value.data⟩])
      else if isTypeSpecifier token then
        match parseFunctionDefinition fuel tokens cur with
        | none => none
        | some (funcNode, cur2) => programLoop fuel tokens cur2 (body ++ [funcNode])
      else programLoop fuel tokens (cur + 1) body

/-- `parseProgram` (`current` is reset to 0 on entry). -/
def parseProgram (fuel : Nat) (tokens : List Token) : Option Node :=
  programLoop fuel tokens 0 []

/-- `parse`. -/
def parse (fuel : Nat) (tokens : List Token) : Option Node :=
  parseProgram fuel tokens

/-- The token sequence of `int main ( ) \x7b` — a function definition
missing its closing brace. -/
def c2Tokens : List Token :=
  [{ type := "KEYWORD", value := "int" },
   { type := "IDENTIFIER", value := "main" },
   { type := "OPEN_PAREN", value := "(" },
   { type := "CLOSE_PAREN", value := ")" },
   { type := "OPEN_BRACE", value := "\x7b" }]

/-- What the parser produces for `c2Tokens`: a Program tree with the
compound-statement error object sitting in the function's body slot. -/
def c2Result : Node :=
  .program
    [.functionDeclaration "int" "main" []
      (.errorNode "Expected \x27\x7d\x27 at end of compound statement")]

end Parse

end EduCompiler

/-! ### Theorems -/

namespace EduCompiler

namespace Opt

/-- Membership in one step of the `usedVars` collection. -/
theorem mem_usedVarsStep (acc : List String) (i : TACInstruction) (x : String) :
    x ∈ usedVarsStep acc i ↔
      x ∈ acc ∨
        ((i.arg1 = some x ∨ i.arg2 = some x) ∧ x ≠ "" ∧ ¬ strHeadIs 'L' x) := by
  unfold usedVarsStep
  rcases h1 : i.arg1 with _ | a1 <;> rcases h2 : i.arg2 with _ | a2 <;>
    simp only [h1, h2] <;> (try split_ifs) <;>
    simp_all [List.mem_cons] <;> aesop

/-- Membership in the `usedVars` fold, for an arbitrary accumulator. -/
theorem mem_foldl_usedVarsStep (instrs : List TACInstruction) (acc : List String)
    (x : String) :
    x ∈ instrs.foldl usedVarsStep acc ↔
      x ∈ acc ∨
        ((∃ i ∈ instrs, i.arg1 = some x ∨ i.arg2 = some x) ∧
          x ≠ "" ∧ ¬ strHeadIs 'L' x) := by
  induction instrs generalizing acc with
  | nil => simp
  | cons i rest ih =>
    simp only [List.foldl_cons, ih, mem_usedVarsStep, List.mem_cons]
    aesop

/-- Characterisation of the global `usedVars` set of `deadCodeElimination`:
it holds exactly the non-empty source operands that do not begin with the
letter L. -/
theorem mem_usedVars_iff (instrs : List TACInstruction) (x : String) :
    x ∈ usedVars instrs ↔
      (∃ i ∈ instrs, i.arg1 = some x ∨ i.arg2 = some x) ∧
        x ≠ "" ∧ ¬ strHeadIs 'L' x := by
  unfold usedVars
  rw [mem_foldl_usedVarsStep]
  simp

/-- C4 (counterexample): the claim that an `=` instruction is dropped only
when its destination appears nowhere as a source operand is false: in
`c4Demo` the destination `Lx` of the `=` instruction is the source operand
of the RETURN instruction, yet the pass drops the assignment, because the
used set skips every operand starting with the letter L. -/
theorem c4_dce_used_set_counterexample :
    (∃ j ∈ c4Demo.instructions, j.arg1 = some "Lx" ∨ j.arg2 = some "Lx") ∧
    c4Demo.instructions.head? =
      some { op := "=", arg1 := some "5", arg2 := none, result := some "Lx" } ∧
    (deadCodeElimination c4Demo).instructions =
      [{ op := "RETURN", arg1 := some "Lx", arg2 := none, result := none }] := by
  decide

/-- C4 (amended): `deadCodeElimination` keeps an instruction of a function
if and only if it is not an `=` instruction whose destination is absent from
the used set, where the used set holds exactly the non-empty `arg1`/`arg2`
operands of the function that do not begin with the letter L — so an `=`
whose destination starts with L (or is null or empty) is removed even when
that destination is referenced later. -/
theorem c4_dce_drop_iff_amended (func : TACFunction) (i : TACInstruction)
    (hmem : i ∈ func.instructions) :
    i ∈ (deadCodeElimination func).instructions ↔
      (i.op = "=" →
        ∃ r, i.result = some r ∧ r ≠ "" ∧ ¬ strHeadIs 'L' r ∧
          ∃ j ∈ func.instructions, j.arg1 = some r ∨ j.arg2 = some r) := by
  unfold deadCodeElimination
  simp only [List.mem_filter, hmem, true_and, decide_eq_true_eq]
  constructor
  · intro hp hop
    rcases hr : i.result with _ | r
    · exact absurd ⟨hop, by simp [usedHas, hr]⟩ hp
    · have : usedHas (usedVars func.instructions) i.result = true := by
        by_contra hc
        exact hp ⟨hop, by simpa using hc⟩
      rw [hr] at this
      simp only [usedHas] at this
      rw [List.elem_iff] at this
      rw [mem_usedVars_iff] at this
      exact ⟨r, rfl, this.2.1, this.2.2, this.1⟩
  · rintro h ⟨hop, hnot⟩
    rcases h hop with ⟨r, hr, hne, hnL, j, hj, harg⟩
    apply hnot
    rw [hr]
    simp only [usedHas]
    rw [List.elem_iff, mem_usedVars_iff]
    exact ⟨⟨j, hj, harg⟩, hne, hnL⟩

/-- C4 (amended, witness): in `c4Demo` the `=` instruction writing `Lx` is
in the function but not in the optimized output, as the amended rule
predicts. -/
theorem c4_dce_drop_iff_amended_witness :
    ¬ ({ op := "=", arg1 := some "5", arg2 := none,
         result := some "Lx" : TACInstruction } ∈
        (deadCodeElimination c4Demo).instructions) := by
  have h := c4_dce_drop_iff_amended c4Demo
    { op := "=", arg1 := some "5", arg2 := none, result := some "Lx" }
    (by decide)
  intro hmem
  have := h.mp hmem (by decide)
  rcases this with ⟨r, hr, hne, hnL, _⟩
  have : r = "Lx" := by injection hr with h; exact h.symm
  subst this
  exact hnL (by decide)

/-- C1 (code bug): the loop-tagging pass is claimed (by the spec and by the
code comment, which says it keeps the loop structure) to leave the
instruction sequence otherwise unchanged, but on a detected counting loop it
pushes only the retagged label and skips past the back jump, deleting the
loop body, the store and the GOTO: a 4-instruction loop shrinks to 1
instruction. -/
theorem c1_loop_tagging_drops_instructions :
    (loopOptimization c1LoopDemo).instructions =
      [{ op := "LABEL", arg1 := none, arg2 := none, result := some "L1",
         label := some "OPTIMIZED_LOOP" }] ∧
    c1LoopDemo.instructions.length = 4 ∧
    (loopOptimization c1LoopDemo).instructions.length = 1 := by
  decide

/-- C10: the common-subexpression pass keys every non-control instruction
(including PARAM, CALL and RETURN) by opcode and both operands, and replaces
a repeat of an earlier key by a plain `=` copy from the earlier
instruction's result (null for PARAM/RETURN); on a function with a repeated
PARAM and a repeated identical CALL, the duplicates become copies. -/
theorem c10_cse_replaces_repeat
    (exprs : List (String × Option String)) (out : List TACInstruction)
    (instr : TACInstruction) (prev : Option String)
    (hctl : ¬ (instr.op = "LABEL" ∨ instr.op = "GOTO" ∨ instr.op = "IF_FALSE"))
    (hget : mapGet exprs (cseKey instr) = some prev) :
    cseStep (exprs, out) instr =
      (exprs, out ++ [{ op := "=", arg1 := prev, arg2 := none, result := instr.result }]) ∧
    (commonSubexpressionElimination c10Demo).instructions =
      [ { op := "PARAM", arg1 := some "x", arg2 := none, result := none },
        { op := "CALL", arg1 := some "f", arg2 := some "1", result := some "t1" },
        { op := "=", arg1 := none, arg2 := none, result := none },
        { op := "=", arg1 := some "t1", arg2 := none, result := some "t2" } ] := by
  constructor
  · simp only [cseStep, if_neg hctl, hget]
  · decide

/-- C10 (witness): a second identical `PARAM x` against a map holding its
key (with recorded result null) is replaced by a null-to-null copy. -/
theorem c10_cse_replaces_repeat_witness :
    cseStep ([("PARAMxnull", none)], [])
        { op := "PARAM", arg1 := some "x", arg2 := none, result := none } =
      ([("PARAMxnull", none)],
        [{ op := "=", arg1 := none, arg2 := none, result := none }]) := by
  exact (c10_cse_replaces_repeat [("PARAMxnull", none)] []
    { op := "PARAM", arg1 := some "x", arg2 := none, result := none } none
    (by decide) (by decide)).1

end Opt

namespace CodeGen

/-- Two strings with different first characters differ. -/
theorem string_ne_of_head (s t : String) (h : s.data.head? ≠ t.data.head?) :
    s ≠ t :=
  fun e => h (by rw [e])

/-- The head of an append is the head of its non-empty prefix. -/
theorem head_app (p r : String) (c : Char) (h : p.data.head? = some c) :
    (p ++ r).data.head? = some c := by
  have hd : (p ++ r).data = p.data ++ r.data := rfl
  rw [hd]
  cases hp : p.data with
  | nil => rw [hp] at h; simp at h
  | cons a l =>
    rw [hp] at h
    simp only [List.head?_cons, Option.some.injEq] at h
    simp [h]

/-- Appending a colon is injective. -/
theorem append_colon_inj (a b : String) (h : a ++ ":" = b ++ ":") : a = b := by
  apply String.ext
  have hd : a.data ++ [':'] = b.data ++ [':'] := congrArg String.data h
  exact List.append_cancel_right hd

/-- Every `generateAssignment` line starts with a space. -/
theorem generateAssignment_head (funcs : List (String × TACFunction))
    (current : String) (lv : List (String × Int)) (i : TACInstruction)
    (s : String) (hs : s ∈ generateAssignment funcs current lv i) :
    s.data.head? = some ' ' := by
  simp only [generateAssignment] at hs
  split at hs <;> simp only [List.mem_cons, List.mem_singleton,
    List.not_mem_nil, or_false] at hs
  · rcases hs with h | h <;> subst h
    · exact head_app _ _ _ (by decide)
    · exact head_app _ _ _ (head_app _ _ _ (by decide))
  · subst hs; exact head_app _ _ _ (head_app _ _ _ (head_app _ _ _ (by decide)))

/-- Every `generateArithmetic` line starts with a space. -/
theorem generateArithmetic_head (funcs : List (String × TACFunction))
    (current : String) (lv : List (String × Int)) (i : TACInstruction)
    (s : String) (hs : s ∈ generateArithmetic funcs current lv i) :
    s.data.head? = some ' ' := by
  simp only [generateArithmetic, List.mem_append, List.mem_singleton] at hs
  rcases hs with (h | h) | h
  · subst h; exact head_app _ _ _ (by decide)
  · split at h <;> simp only [List.mem_cons, List.mem_singleton,
      List.not_mem_nil, or_false] at h
    · subst h; exact head_app _ _ _ (by decide)
    · subst h; exact head_app _ _ _ (by decide)
    · subst h; exact head_app _ _ _ (by decide)
    · rcases h with h | h <;> subst h
      · decide
      · exact head_app _ _ _ (by decide)
    · rcases h with h | h | h <;> subst h
      · decide
      · exact head_app _ _ _ (by decide)
      · decide
  · subst h; exact head_app _ _ _ (head_app _ _ _ (by decide))

/-- Every `generateConditionalJump` line starts with a space. -/
theorem generateConditionalJump_head (funcs : List (String × TACFunction))
    (current : String) (lv : List (String × Int)) (i : TACInstruction)
    (s : String) (hs : s ∈ generateConditionalJump funcs current lv i) :
    s.data.head? = some ' ' := by
  simp only [generateConditionalJump, List.mem_cons, List.mem_singleton,
    List.not_mem_nil, or_false] at hs
  rcases hs with h | h <;> subst h
  · exact head_app _ _ _ (head_app _ _ _ (by decide))
  · exact head_app _ _ _ (by decide)

/-- Every `generateParameter` line starts with a space. -/
theorem generateParameter_head (funcs : List (String × TACFunction))
    (current : String) (lv : List (String × Int)) (i : TACInstruction)
    (s : String) (hs : s ∈ generateParameter funcs current lv i) :
    s.data.head? = some ' ' := by
  simp only [generateParameter, List.mem_singleton] at hs
  subst hs; exact head_app _ _ _ (by decide)

/-- Every `generateFunctionCall` line starts with a space. -/
theorem generateFunctionCall_head (funcs : List (String × TACFunction))
    (current : String) (lv : List (String × Int)) (i : TACInstruction)
    (s : String) (hs : s ∈ generateFunctionCall funcs current lv i) :
    s.data.head? = some ' ' := by
  simp only [generateFunctionCall, List.mem_append, List.mem_singleton] at hs
  rcases hs with (h | h) | h
  · subst h; exact head_app _ _ _ (by decide)
  · split at h
    · split at h <;> simp only [List.mem_singleton, List.not_mem_nil] at h
      subst h; exact head_app _ _ _ (by decide)
    · simp at h
  · split at h <;> simp only [List.mem_singleton, List.not_mem_nil] at h
    subst h; exact head_app _ _ _ (head_app _ _ _ (by decide))

/-- Every `generateReturn` line starts with a space. -/
theorem generateReturn_head (funcs : List (String × TACFunction))
    (current : String) (lv : List (String × Int)) (i : TACInstruction)
    (s : String) (hs : s ∈ generateReturn funcs current lv i) :
    s.data.head? = some ' ' := by
  simp only [generateReturn, List.mem_append, List.mem_singleton] at hs
  rcases hs with h | h
  · split at h <;> simp only [List.mem_singleton, List.not_mem_nil] at h
    subst h; exact head_app _ _ _ (by decide)
  · subst h; exact head_app _ _ _ (head_app _ _ _ (by decide))

/-- Every line `generateInstruction` pushes either starts with a space, or
is the `instr.label` line, or the LABEL-opcode line. -/
theorem generateInstruction_line_shape (funcs : List (String × TACFunction))
    (current : String) (lv : List (String × Int)) (i : TACInstruction)
    (s : String) (hs : s ∈ generateInstruction funcs current lv i) :
    s.data.head? = some ' ' ∨
    (∃ l, i.label = some l ∧ s = l ++ ":") ∨
    (i.op = "LABEL" ∧ s = jsShow i.result ++ ":") := by
  unfold generateInstruction at hs
  rw [List.mem_append] at hs
  rcases hs with hpre | hop
  · rcases hl : i.label with _ | l
    · rw [hl] at hpre; simp at hpre
    · rw [hl] at hpre
      by_cases he : l = ""
      · simp [he] at hpre
      · simp only [if_neg he, List.mem_singleton] at hpre
        exact Or.inr (Or.inl ⟨l, rfl, hpre⟩)
  · split at hop
    · exact Or.inr (Or.inr ⟨by assumption, by simpa using hop⟩)
    · exact Or.inl (generateAssignment_head _ _ _ _ _ hop)
    · exact Or.inl (generateArithmetic_head _ _ _ _ _ hop)
    · exact Or.inl (generateArithmetic_head _ _ _ _ _ hop)
    · exact Or.inl (generateArithmetic_head _ _ _ _ _ hop)
    · exact Or.inl (generateArithmetic_head _ _ _ _ _ hop)
    · exact Or.inl (generateArithmetic_head _ _ _ _ _ hop)
    · exact Or.inl (generateConditionalJump_head _ _ _ _ _ hop)
    · simp only [List.mem_singleton] at hop
      subst hop; exact Or.inl (head_app _ _ _ (by decide))
    · exact Or.inl (generateParameter_head _ _ _ _ _ hop)
    · exact Or.inl (generateFunctionCall_head _ _ _ _ _ hop)
    · exact Or.inl (generateReturn_head _ _ _ _ _ hop)
    · simp at hop

/-- C6: for every TAC function containing a RETURN instruction (and whose
labels, like all pipeline-produced labels, are not themselves named
`<name>_end`), the emitted lines for that function contain the jump
`jmp <name>_end` but never a line defining the label `<name>_end:` — the
jump target is left dangling. -/
theorem c6_return_jumps_to_unemitted_end_label
    (funcs : List (String × TACFunction)) (name : String) (f : TACFunction)
    (hn : identHeadChar name = true)
    (hret : ∃ i ∈ f.instructions, i.op = "RETURN")
    (hlab : ∀ i ∈ f.instructions, i.label ≠ some (name ++ "_end") ∧
        (i.op = "LABEL" → jsShow i.result ≠ name ++ "_end")) :
    ("    jmp " ++ name ++ "_end") ∈ generateFunction funcs name f ∧
    (name ++ "_end:") ∉ generateFunction funcs name f := by
  obtain ⟨c, cs, hdata, hc⟩ :
      ∃ c cs, name.data = c :: cs ∧ (c.isAlphanum || c = '_') = true := by
    unfold identHeadChar at hn
    rcases hd : name.data with _ | ⟨c, cs⟩
    · rw [hd] at hn; simp at hn
    · rw [hd] at hn; exact ⟨c, cs, rfl, hn⟩
  have hc_ne_space : c ≠ ' ' := by
    intro h; subst h; revert hc; decide
  have hc_ne_semi : c ≠ ';' := by
    intro h; subst h; revert hc; decide
  have htarget_head : (name ++ "_end:").data.head? = some c := by
    have hd : (name ++ "_end:").data = name.data ++ "_end:".data := rfl
    rw [hd, hdata]; simp
  have hend : name ++ "_end:" = (name ++ "_end") ++ ":" := by
    rw [String.append_assoc]
    rfl
  have hspace : ∀ s : String, s.data.head? = some ' ' → name ++ "_end:" ≠ s := by
    intro s hs heq
    have h2 : s.data.head? = some c := heq ▸ htarget_head
    rw [hs] at h2
    have h3 : (' ' : Char) = c := by injection h2
    exact hc_ne_space h3.symm
  have hsemi : ∀ s : String, s.data.head? = some ';' → name ++ "_end:" ≠ s := by
    intro s hs heq
    have h2 : s.data.head? = some c := heq ▸ htarget_head
    rw [hs] at h2
    have h3 : (';' : Char) = c := by injection h2
    exact hc_ne_semi h3.symm
  have hcolon : ∀ l : String, name ++ "_end:" = l ++ ":" → name ++ "_end" = l := by
    intro l h
    rw [hend] at h
    exact append_colon_inj _ _ h
  constructor
  · obtain ⟨i, hi, hiop⟩ := hret
    simp only [generateFunction]
    rw [List.mem_append]
    left
    rw [List.mem_append]
    right
    rw [List.mem_flatten]
    refine ⟨generateInstruction funcs name (paramOffsets f.params) i,
      List.mem_map_of_mem _ hi, ?_⟩
    unfold generateInstruction
    rw [List.mem_append]
    right
    rw [hiop]
    unfold generateReturn
    simp
  · intro hmem
    simp only [generateFunction] at hmem
    rcases List.mem_append.mp hmem with hmem | h
    rotate_left
    · -- epilogue
      rcases List.mem_cons.mp h with h | h
      · exact hspace _ (by decide) h
      rcases List.mem_cons.mp h with h | h
      · exact hspace _ (by decide) h
      rcases List.mem_cons.mp h with h | h
      · exact hspace _ (by decide) h
      rcases List.mem_cons.mp h with h | h
      · have h2 := congrArg String.data h
        have h3 : (name ++ "_end:").data = name.data ++ "_end:".data := rfl
        rw [h3, hdata] at h2
        simp at h2
      · exact absurd h (List.not_mem_nil _)
    rcases List.mem_append.mp hmem with hmem | h
    rotate_left
    · -- translated instructions
      rw [List.mem_flatten] at h
      obtain ⟨lns, hlns, hsl⟩ := h
      rw [List.mem_map] at hlns
      obtain ⟨i, hi, rfl⟩ := hlns
      rcases generateInstruction_line_shape _ _ _ _ _ hsl with hh | ⟨l, hl, he⟩ | ⟨hop, he⟩
      · exact hspace _ hh rfl
      · have h2 := hcolon _ he
        exact (hlab i hi).1 (by rw [hl, h2])
      · have h2 := hcolon _ he
        exact (hlab i hi).2 hop h2.symm
    rcases List.mem_append.mp hmem with h | h
    · -- prologue header
      rcases List.mem_cons.mp h with h | h
      · exact hsemi _ (head_app _ _ _ (by decide)) h
      rcases List.mem_cons.mp h with h | h
      · have h2 := hcolon _ h
        have hlen := congrArg (fun t => t.data.length) h2
        have hd2 : (name ++ "_end").data = name.data ++ "_end".data := rfl
        simp only [hd2, List.length_append] at hlen
        simp at hlen
      rcases List.mem_cons.mp h with h | h
      · exact hspace _ (by decide) h
      rcases List.mem_cons.mp h with h | h
      · exact hspace _ (by decide) h
      · exact absurd h (List.not_mem_nil _)
    · -- optional sub esp line
      split at h
      · rcases List.mem_cons.mp h with h | h
        · exact hspace _ (head_app _ _ _ (by decide)) h
        · exact absurd h (List.not_mem_nil _)
      · exact absurd h (List.not_mem_nil _)

/-- C6 (witness): the single-RETURN function `main` gets a `jmp main_end`
line and no `main_end:` line. -/
theorem c6_return_jumps_to_unemitted_end_label_witness :
    ("    jmp " ++ "main" ++ "_end") ∈
      generateFunction [] "main"
        { name := "main", params := [], tempCount := 0,
          instructions :=
            [{ op := "RETURN", arg1 := some "0", arg2 := none, result := none }] } ∧
    ("main" ++ "_end:") ∉
      generateFunction [] "main"
        { name := "main", params := [], tempCount := 0,
          instructions :=
            [{ op := "RETURN", arg1 := some "0", arg2 := none, result := none }] } := by
  exact c6_return_jumps_to_unemitted_end_label [] "main"
    { name := "main", params := [], tempCount := 0,
      instructions :=
        [{ op := "RETURN", arg1 := some "0", arg2 := none, result := none }] }
    (by decide) (by decide) (by decide)

end CodeGen

namespace IRGen

/-- The freshly allocated temporary name is never a numeral. -/
theorem jsNumericString_temp (x : String) :
    jsNumericString ("t" ++ x) = false := by
  have hd : ("t" ++ x).data = 't' :: x.data := rfl
  simp [jsNumericString, hd]

/-- General behaviour of the lowering of `++`/`--` on an identifier
operand: both the PrefixExpression and the PostfixExpression node emit the
arithmetic instruction (`+` for `++`, `-` for `--`, second operand `1`)
into a fresh temporary followed by the store back into the operand name,
both return the operand name itself as the expression's result, and
executing the two instructions leaves that name holding the incremented
(respectively decremented) value. -/
theorem unary_lowering (st : GenState) (a : String) (env : String → Int)
    (op : String) (hop : op = "++" ∨ op = "--")
    (hn : jsNumericString a = false) :
    generateExpression st (some (.postExpr op (some (.identifier a)))) =
      ({ instructions := st.instructions ++
          [⟨if op = "++" then "+" else "-", some a, some "1",
            some ("t" ++ toString (st.tempCount + 1)), none⟩,
           ⟨"=", some ("t" ++ toString (st.tempCount + 1)), none, some a, none⟩],
         tempCount := st.tempCount + 1 }, some a) ∧
    generateExpression st (some (.preExpr op (some (.identifier a)))) =
      ({ instructions := st.instructions ++
          [⟨if op = "++" then "+" else "-", some a, some "1",
            some ("t" ++ toString (st.tempCount + 1)), none⟩,
           ⟨"=", some ("t" ++ toString (st.tempCount + 1)), none, some a, none⟩],
         tempCount := st.tempCount + 1 }, some a) ∧
    TacEval.execList env
        [⟨if op = "++" then "+" else "-", some a, some "1",
          some ("t" ++ toString (st.tempCount + 1)), none⟩,
         ⟨"=", some ("t" ++ toString (st.tempCount + 1)), none, some a, none⟩] a
      = env a + (if op = "++" then 1 else -1) := by
  have h1 : jsNumericString "1" = true := by decide
  have h2 : jsToInt "1" = 1 := by decide
  rcases hop with rfl | rfl
  · refine ⟨?_, ?_, ?_⟩
    · simp [generateExpression, generateUnaryExpression, emitInstruction,
        newTemp, jsNameAttrOpt, jsNameAttr]
    · simp [generateExpression, generateUnaryExpression, emitInstruction,
        newTemp, jsNameAttrOpt, jsNameAttr]
    · simp [TacEval.execList, TacEval.execInstr, TacEval.updateEnv,
        TacEval.evalOperand, hn, jsNumericString_temp, h1, h2]
  · refine ⟨?_, ?_, ?_⟩
    · simp [generateExpression, generateUnaryExpression, emitInstruction,
        newTemp, jsNameAttrOpt, jsNameAttr]
    · simp [generateExpression, generateUnaryExpression, emitInstruction,
        newTemp, jsNameAttrOpt, jsNameAttr]
    · simp [TacEval.execList, TacEval.execInstr, TacEval.updateEnv,
        TacEval.evalOperand, hn, jsNumericString_temp, h1, h2]
      omega

/-- C3 (counterexample): lowering the postfix expressions `x++` and `x--`
yields the name `x` itself as the expression result, and running the two
emitted instructions from a state where `x` is 5 leaves that name denoting
6 (respectively 4) — the updated value, not the pre-update value 5 the
claim requires for postfix. -/
theorem c3_postfix_counterexample :
    ((generateExpression { instructions := [], tempCount := 0 }
        (some (.postExpr "++" (some (.identifier "x"))))).2 = some "x" ∧
      TacEval.execList (fun _ => 5)
        (generateExpression { instructions := [], tempCount := 0 }
          (some (.postExpr "++" (some (.identifier "x"))))).1.instructions "x"
        = 6) ∧
    ((generateExpression { instructions := [], tempCount := 0 }
        (some (.postExpr "--" (some (.identifier "x"))))).2 = some "x" ∧
      TacEval.execList (fun _ => 5)
        (generateExpression { instructions := [], tempCount := 0 }
          (some (.postExpr "--" (some (.identifier "x"))))).1.instructions "x"
        = 4) ∧
    ((6 : Int) ≠ 5 ∧ (4 : Int) ≠ 5) := by
  have hpp := unary_lowering { instructions := [], tempCount := 0 } "x"
    (fun _ => 5) "++" (Or.inl rfl) (by decide)
  have hmm := unary_lowering { instructions := [], tempCount := 0 } "x"
    (fun _ => 5) "--" (Or.inr rfl) (by decide)
  refine ⟨⟨by rw [hpp.1], ?_⟩, ⟨by rw [hmm.1], ?_⟩, by decide, by decide⟩
  · rw [hpp.1]
    simpa using hpp.2.2
  · rw [hmm.1]
    simpa using hmm.2.2

/-- C3 (amended): lowering either the prefix or the postfix form of
increment or decrement of an identifier emits the arithmetic-by-1
instruction (`+` for `++`, `-` for `--`) into a fresh temporary followed by
the store back into the operand's name; but both forms yield the operand's
own name as the expression's result (the generator tests an `expr.prefix`
field the parser never sets), so after the emitted store the result denotes
the updated value for prefix — as the claim states — and also for postfix,
where the pre-update value is lost. -/
theorem c3_incdec_lowering_amended (st : GenState) (a : String)
    (env : String → Int) (op : String) (hop : op = "++" ∨ op = "--")
    (hn : jsNumericString a = false) :
    generateExpression st (some (.postExpr op (some (.identifier a)))) =
      ({ instructions := st.instructions ++
          [⟨if op = "++" then "+" else "-", some a, some "1",
            some ("t" ++ toString (st.tempCount + 1)), none⟩,
           ⟨"=", some ("t" ++ toString (st.tempCount + 1)), none, some a, none⟩],
         tempCount := st.tempCount + 1 }, some a) ∧
    generateExpression st (some (.preExpr op (some (.identifier a)))) =
      ({ instructions := st.instructions ++
          [⟨if op = "++" then "+" else "-", some a, some "1",
            some ("t" ++ toString (st.tempCount + 1)), none⟩,
           ⟨"=", some ("t" ++ toString (st.tempCount + 1)), none, some a, none⟩],
         tempCount := st.tempCount + 1 }, some a) ∧
    TacEval.execList env
        [⟨if op = "++" then "+" else "-", some a, some "1",
          some ("t" ++ toString (st.tempCount + 1)), none⟩,
         ⟨"=", some ("t" ++ toString (st.tempCount + 1)), none, some a, none⟩] a
      = env a + (if op = "++" then 1 else -1) :=
  unary_lowering st a env op hop hn

/-- C3 (amended, witness): the lowerings of `y++` and `y--` from a fresh
state, with `y` initially 41, store 42 (respectively 40) back into `y`. -/
theorem c3_incdec_lowering_amended_witness :
    jsNumericString "y" = false ∧
    TacEval.execList (fun _ => 41)
        [⟨"+", some "y", some "1", some "t1", none⟩,
         ⟨"=", some "t1", none, some "y", none⟩] "y" = 42 ∧
    TacEval.execList (fun _ => 41)
        [⟨"-", some "y", some "1", some "t1", none⟩,
         ⟨"=", some "t1", none, some "y", none⟩] "y" = 40 := by
  refine ⟨by decide, ?_, ?_⟩
  · have h := (c3_incdec_lowering_amended { instructions := [], tempCount := 0 }
      "y" (fun _ => 41) "++" (Or.inl rfl) (by decide)).2.2
    simpa using h
  · have h := (c3_incdec_lowering_amended { instructions := [], tempCount := 0 }
      "y" (fun _ => 41) "--" (Or.inr rfl) (by decide)).2.2
    simpa using h

end IRGen

namespace Sem0

/-- Diagnostics only accumulate: analysing any expression leaves the
previous error list as a prefix (joint induction over the expression
clique of the analyzer). -/
theorem analyzeExpression_errors_mono :
    ∀ (st : AState) (o : Option Node),
      ∃ es, (analyzeExpression st o).errors = st.errors ++ es := by
  refine analyzeExpression.induct
    (fun st o => ∃ es, (analyzeExpression st o).errors = st.errors ++ es)
    (fun st o => ∃ es, (analyzeUnaryExpression st o).errors = st.errors ++ es)
    (fun st n args => ∃ es, (analyzeFunctionCall st n args).errors = st.errors ++ es)
    (fun st l => ∃ es, (analyzeExprList st l).errors = st.errors ++ es)
    (fun st l r => ∃ es, (analyzeBinaryExpression st l r).errors = st.errors ++ es)
    (fun st l r => ∃ es, (analyzeAssignmentExpression st l r).errors = st.errors ++ es)
    ?_ ?_ ?_ ?_ ?_ ?_ ?_ ?_ ?_ ?_ ?_ ?_ ?_ ?_ ?_ ?_
  · intro st
    exact ⟨[], by simp [analyzeExpression]⟩
  · intro st op l r ih
    simpa [analyzeExpression] using ih
  · intro st op l r ih
    simpa [analyzeExpression] using ih
  · intro st n
    simp only [analyzeExpression]
    unfold analyzeIdentifier
    split
    · exact ⟨[], by simp⟩
    · exact ⟨_, rfl⟩
  · intro st v
    exact ⟨[], by simp [analyzeExpression]⟩
  · intro st n args ih
    simpa [analyzeExpression] using ih
  · intro st op arg ih
    simpa [analyzeExpression] using ih
  · intro st op arg ih
    simpa [analyzeExpression] using ih
  · intro st e h1 h2 h3 h4 h5 h6 h7
    cases e <;> first
      | exact absurd rfl (h1 _ _ _)
      | exact absurd rfl (h2 _ _ _)
      | exact absurd rfl (h3 _)
      | exact absurd rfl (h4 _)
      | exact absurd rfl (h5 _ _)
      | exact absurd rfl (h6 _ _)
      | exact absurd rfl (h7 _ _)
      | exact ⟨[], by simp [analyzeExpression]⟩
  · intro st arg ih
    simpa [analyzeUnaryExpression] using ih
  · intro st n args h
    exact ⟨["Function \x27" ++ n ++ "\x27 not declared"],
      by simp [analyzeFunctionCall, h]⟩
  · intro st n args func hfunc ih
    obtain ⟨es2, hes⟩ := ih
    by_cases hcond : n ≠ "printf" ∧ args.length ≠ func.params.length
    · rw [dif_pos hcond] at hes
      refine ⟨("Function \x27" ++ n ++ "\x27 expects " ++
        toString func.params.length ++ " arguments but got " ++
        toString args.length) :: es2, ?_⟩
      simp only [analyzeFunctionCall, hfunc, if_pos hcond]
      rw [hes]
      simp
    · rw [dif_neg hcond] at hes
      refine ⟨es2, ?_⟩
      simp only [analyzeFunctionCall, hfunc, if_neg hcond]
      exact hes
  · intro st
    exact ⟨[], by simp [analyzeExprList]⟩
  · intro st a rest ih1 ih2
    obtain ⟨es1, h1⟩ := ih1
    obtain ⟨es2, h2⟩ := ih2
    refine ⟨es1 ++ es2, ?_⟩
    simp only [analyzeExprList]
    rw [h2, h1, List.append_assoc]
  · intro st l r ih1 ih2
    obtain ⟨es1, h1⟩ := ih1
    obtain ⟨es2, h2⟩ := ih2
    refine ⟨es1 ++ es2, ?_⟩
    simp only [analyzeBinaryExpression]
    rw [h2, h1, List.append_assoc]
  · intro st l r ih
    by_cases hcond : (match jsNameAttrOpt l with
        | some n => (mapGet st.symbolTable n).isSome
        | none => false) = true
    · rw [dif_pos hcond] at ih
      obtain ⟨es, hes⟩ := ih
      refine ⟨es, ?_⟩
      simp only [analyzeAssignmentExpression, if_pos hcond]
      exact hes
    · rw [dif_neg hcond] at ih
      obtain ⟨es, hes⟩ := ih
      refine ⟨("Variable \x27" ++ jsShowU (jsNameAttrOpt l) ++
        "\x27 not declared") :: es, ?_⟩
      simp only [analyzeAssignmentExpression, if_neg hcond]
      rw [hes]
      simp

/-- Argument-list analysis only appends diagnostics. -/
theorem analyzeExprList_errors_mono (l : List Node) (st : AState) :
    ∃ es, (analyzeExprList st l).errors = st.errors ++ es := by
  induction l generalizing st with
  | nil => exact ⟨[], by simp [analyzeExprList]⟩
  | cons a rest ih =>
    obtain ⟨es1, h1⟩ := analyzeExpression_errors_mono st (some a)
    obtain ⟨es2, h2⟩ := ih (analyzeExpression st (some a))
    refine ⟨es1 ++ es2, ?_⟩
    simp only [analyzeExprList]
    rw [h2, h1, List.append_assoc]

/-- C8: a call to a user-defined function whose declared parameter count
differs from the argument count yields one diagnostic stating the expected
and actual counts (further diagnostics may only come from the arguments
themselves); a call to `printf` skips the count check entirely, passing the
state unchanged into argument analysis, whatever the argument count; and on
a program declaring `int f(int a, int b)` and calling `f(1)`, the whole
analysis yields exactly that one diagnostic. -/
theorem c8_arity_check_and_printf_exemption :
    (∀ (st : AState) (n : String) (args : List Node) (func : FuncInfo),
        n ≠ "printf" → mapGet st.functionTable n = some func →
        args.length ≠ func.params.length →
        ∃ tail, (analyzeFunctionCall st n args).errors =
          st.errors ++ ("Function \x27" ++ n ++ "\x27 expects " ++
            toString func.params.length ++ " arguments but got " ++
            toString args.length) :: tail) ∧
    (∀ (st : AState) (args : List Node) (func : FuncInfo),
        mapGet st.functionTable "printf" = some func →
        analyzeFunctionCall st "printf" args = analyzeExprList st args) ∧
    (analyze initialState (some c8Demo)).errors =
      ["Function \x27f\x27 expects 2 arguments but got 1"] := by
  refine ⟨?_, ?_, ?_⟩
  · intro st n args func hne hfunc hcount
    have hcond : n ≠ "printf" ∧ args.length ≠ func.params.length := ⟨hne, hcount⟩
    obtain ⟨es, hes⟩ := analyzeExprList_errors_mono args
      { st with errors := st.errors ++
        ["Function \x27" ++ n ++ "\x27 expects " ++
          toString func.params.length ++ " arguments but got " ++
          toString args.length] }
    refine ⟨es, ?_⟩
    simp only [analyzeFunctionCall, hfunc, if_pos hcond]
    rw [hes]
    simp
  · intro st args func hfunc
    simp [analyzeFunctionCall, hfunc]
  · simp [analyze, initialState, c8Demo, addStandardLibraryFunctions,
      analyzeFunction, analyzeStmtList, analyzeStatement,
      analyzeReturnStatement, analyzeExpression, analyzeFunctionCall,
      analyzeExprList, mapSetR, mapGet, jsOrDefault, jsParamName,
      jsParamType, List.enum]
    decide

/-- C8 (witness): concrete instances of both halves — `f` declared with two
parameters and called with one argument produces the count diagnostic, and
`printf` called with no arguments against its seeded one-parameter
signature produces none. -/
theorem c8_arity_check_and_printf_exemption_witness :
    (∃ tail,
      (analyzeFunctionCall
          { currentFunctionScope := none, symbolTable := [],
            functionTable := [("f",
              { name := "f",
                params := [⟨"a", "int", some true⟩, ⟨"b", "int", some true⟩],
                returnType := "int", isStandardLibrary := false })],
            errors := [], globalSymbolTable := [] }
          "f" [.literal "1"]).errors =
        [] ++ ("Function \x27" ++ "f" ++ "\x27 expects " ++
          toString ([⟨"a", "int", some true⟩,
            ⟨"b", "int", some true⟩] : List ParamInfo).length ++
          " arguments but got " ++
          toString ([Node.literal "1"]).length) :: tail) ∧
    analyzeFunctionCall initialState "printf" [] =
      analyzeExprList initialState [] := by
  constructor
  · exact c8_arity_check_and_printf_exemption.1
      { currentFunctionScope := none, symbolTable := [],
        functionTable := [("f",
          { name := "f",
            params := [⟨"a", "int", some true⟩, ⟨"b", "int", some true⟩],
            returnType := "int", isStandardLibrary := false })],
        errors := [], globalSymbolTable := [] }
      "f" [.literal "1"]
      { name := "f",
        params := [⟨"a", "int", some true⟩, ⟨"b", "int", some true⟩],
        returnType := "int", isStandardLibrary := false }
      (by decide) (by decide) (by decide)
  · exact c8_arity_check_and_printf_exemption.2.1 initialState []
      { name := "printf", params := [⟨"format", "char*", none⟩],
        returnType := "int", isStandardLibrary := true }
      (by decide)

end Sem0

namespace Sem1

/-- Evaluation of the Sem1 analyzer on `c5Ast` from any starting state: the
tables are rebuilt from scratch, but the for-scope's name embeds the
`Date.now()` reading, and the clock position advances. -/
theorem analyze_c5Ast_eval (st : SState) :
    analyze st (some c5Ast) =
    { symbolTable :=
        [("main.for" ++ toString (st.clock st.clockPos),
          [{ name := "i", type := "int",
             scope := "main.for" ++ toString (st.clock st.clockPos),
             isInitialized := false }])],
      functionTable :=
        [("main",
          { name := "main", returnType := "int", parameters := [],
            isDefined := true })],
      currentScope := "global",
      errors := ["Function \x22main\x22 must return a value of type int"],
      clock := st.clock, clockPos := st.clockPos + 1 } := by
  simp only [analyze, c5Ast, reset, analyzeProgram, List.foldl,
    analyzeFunction, addParams, convertToSymbolType, mapSetR,
    analyzeStmtList, analyzeStatement, analyzeForStatement, dateNow,
    analyzeForInit, analyzeOptExpr, analyzeDeclaration,
    isSymbolDeclaredInCurrentScope, mapGet, addSymbol,
    Option.getD, hasReturnStatement, jsBodyList, hasReturnList,
    List.nil_append, ne_eq, ite_true, ite_false, if_neg, if_pos,
    Bool.false_eq_true, not_false_eq_true, and_true, true_and,
    List.append_nil, String.reduceEq, reduceIte, reduceCtorEq,
    List.find?_nil, Option.map_none', Option.isSome_none,
    String.reduceAppend, String.append_assoc]

/-- C5 (counterexample): running `analyze` twice in succession on the very
same AST yields different symbol tables — the for-loop scope is named after
`Date.now()`, which has advanced by the second run (here the ambient clock
ticks once per reading), so the first run records scope `main.for0` and the
second `main.for1`. -/
theorem c5_repeat_analyze_counterexample :
    (analyze c5S0 (some c5Ast)).symbolTable ≠
    (analyze (analyze c5S0 (some c5Ast)) (some c5Ast)).symbolTable := by
  rw [analyze_c5Ast_eval, analyze_c5Ast_eval]
  decide

/-- C5 (amended): `analyze` does reset every table and diagnostic on entry,
so its result depends only on the AST and on the ambient `Date.now()`
readings — two invocations agree whenever they observe the same clock; but
scope identifiers embed those readings, so invocations at different times
(as in the counterexample) disagree on them. -/
theorem c5_analyze_resets_tables_amended (s1 s2 : SState)
    (hc : s1.clock = s2.clock) (hp : s1.clockPos = s2.clockPos)
    (ast : Option Node) : analyze s1 ast = analyze s2 ast := by
  have h : reset s1 = reset s2 := by
    cases s1; cases s2; simp_all [reset]
  unfold analyze
  split <;> rw [h]

/-- C5 (witness): an analyzer holding stale tables, a stale scope and stale
diagnostics agrees with a fresh analyzer at the same clock. -/
theorem c5_analyze_resets_tables_amended_witness :
    c5S1.clock = c5S2.clock ∧ c5S1.clockPos = c5S2.clockPos ∧
    analyze c5S1 (some c5Ast) = analyze c5S2 (some c5Ast) :=
  ⟨rfl, rfl, c5_analyze_resets_tables_amended c5S1 c5S2 rfl rfl (some c5Ast)⟩

end Sem1

namespace Lexer


theorem classifyLexeme_value (l : List Char) :
    (classifyLexeme l).value = ⟨l⟩ := by
  unfold classifyLexeme
  split_ifs <;> rfl

theorem strLitScan_eq : ∀ (l content rem : List Char),
    strLitScan l = some (content, rem) → l = content ++ '"' :: rem := by
  intro l
  induction l using strLitScan.induct with
  | case1 => intro content rem h; simp [strLitScan] at h
  | case2 rest =>
    intro content rem h
    simp [strLitScan] at h
    obtain ⟨rfl, rfl⟩ := h
    rfl
  | case3 => intro content rem h; simp [strLitScan] at h
  | case4 d rest ih =>
    intro content rem h
    simp only [strLitScan, Option.map_eq_some'] at h
    obtain ⟨p, hp, hf⟩ := h
    obtain ⟨rfl, rfl⟩ : '\\' :: d :: p.1 = content ∧ p.2 = rem := by
      constructor <;> (cases hf; rfl)
    simpa using ih p.1 p.2 (by rw [hp])
  | case5 c rest h1 h2 h3 ih =>
    intro content rem h
    simp only [strLitScan, Option.map_eq_some'] at h
    obtain ⟨p, hp, hf⟩ := h
    injection hf with h4 h5
    subst h4; subst h5
    have hr := ih p.1 p.2 hp
    rw [hr]
    rfl


theorem splitAtOpen_eq : ∀ (l before after : List Char),
    splitAtOpen l = some (before, after) →
    l = before ++ '/' :: '*' :: after := by
  intro l
  induction l using splitAtOpen.induct with
  | case1 rest =>
    intro before after h
    simp [splitAtOpen] at h
    obtain ⟨rfl, rfl⟩ := h
    rfl
  | case2 c rest h1 ih =>
    intro before after h
    simp only [splitAtOpen, Option.map_eq_some'] at h
    obtain ⟨p, hp, hf⟩ := h
    injection hf with h4 h5
    subst h4; subst h5
    have hr := ih p.1 p.2 hp
    rw [hr]
    rfl
  | case3 => intro before after h; simp [splitAtOpen] at h

theorem splitAtClose_eq : ∀ (l before after : List Char),
    splitAtClose l = some (before, after) →
    l = before ++ '*' :: '/' :: after := by
  intro l
  induction l using splitAtClose.induct with
  | case1 rest =>
    intro before after h
    simp [splitAtClose] at h
    obtain ⟨rfl, rfl⟩ := h
    rfl
  | case2 c rest h1 ih =>
    intro before after h
    simp only [splitAtClose, Option.map_eq_some'] at h
    obtain ⟨p, hp, hf⟩ := h
    injection hf with h4 h5
    subst h4; subst h5
    have hr := ih p.1 p.2 hp
    rw [hr]
    rfl
  | case3 => intro before after h; simp [splitAtClose] at h

theorem stripBlockComments_accounts :
    ∀ (fuel : Nat) (l : List Char) (c : Char), c ∈ l →
    (∃ t ∈ (stripBlockComments fuel l).1, c ∈ t.value.data) ∨
      c ∈ (stripBlockComments fuel l).2 := by
  intro fuel
  induction fuel with
  | zero => intro l c hc; right; simpa [stripBlockComments] using hc
  | succ fuel ih =>
    intro l c hc
    cases hO : splitAtOpen l with
    | none => right; simp [stripBlockComments, hO]; exact hc
    | some q =>
      obtain ⟨before, afterOpen⟩ := q
      cases hC : splitAtClose afterOpen with
      | none => right; simp [stripBlockComments, hO, hC]; exact hc
      | some r =>
        obtain ⟨inside, afterClose⟩ := r
        have hl := splitAtOpen_eq l before afterOpen hO
        have ha := splitAtClose_eq afterOpen inside afterClose hC
        simp only [stripBlockComments, hO, hC]
        rw [hl, ha] at hc
        simp only [List.mem_append, List.mem_cons] at hc
        rcases hc with hb | rfl | rfl | hin | rfl | rfl | hc
        · right; simp [hb]
        · left
          refine ⟨_, List.mem_cons_self _ _, ?_⟩
          simp
        · left
          refine ⟨_, List.mem_cons_self _ _, ?_⟩
          simp
        · left
          refine ⟨_, List.mem_cons_self _ _, ?_⟩
          simp [hin]
        · left
          refine ⟨_, List.mem_cons_self _ _, ?_⟩
          simp
        · left
          refine ⟨_, List.mem_cons_self _ _, ?_⟩
          simp
        · rcases ih afterClose c hc with ⟨t, ht, hct⟩ | h2
          · exact Or.inl ⟨t, List.mem_cons_of_mem _ ht, hct⟩
          · right; simp [h2]


theorem dropWhile_mem (p : Char → Bool) :
    ∀ (l : List Char) (c : Char), c ∈ l → p c = false →
      c ∈ l.dropWhile p := by
  intro l
  induction l with
  | nil => intro c hc _; cases hc
  | cons a rest ih =>
    intro c hc hp
    rw [List.dropWhile_cons]
    by_cases ha : p a = true
    · simp only [ha, if_true]
      rcases List.mem_cons.mp hc with rfl | hc
      · rw [hp] at ha; cases ha
      · exact ih c hc hp
    · simp only [Bool.not_eq_true] at ha
      rw [ha]
      simp only [Bool.false_eq_true, if_false]
      exact hc

theorem jsTrim_mem (l : List Char) (c : Char) (hc : c ∈ l)
    (hp : jsSpace c = false) : c ∈ jsTrim l := by
  unfold jsTrim
  rw [List.mem_reverse]
  apply dropWhile_mem _ _ _ _ hp
  rw [List.mem_reverse]
  exact dropWhile_mem _ _ _ hc hp

theorem splitLines_mem :
    ∀ (l : List Char) (c : Char), c ∈ l → c ≠ '\n' →
      ∃ line ∈ splitLines l, c ∈ line := by
  intro l
  induction l with
  | nil => intro c hc _; cases hc
  | cons a rest ih =>
    intro c hc hnl
    rcases List.mem_cons.mp hc with rfl | hc
    · simp only [splitLines, if_neg hnl]
      cases hr : splitLines rest with
      | nil => exact ⟨[c], by simp, by simp⟩
      | cons l1 ls => exact ⟨c :: l1, by simp, by simp⟩
    · obtain ⟨line, hline, hcl⟩ := ih c hc hnl
      by_cases ha : a = '\n'
      · subst ha
        simp only [splitLines, if_pos rfl]
        exact ⟨line, List.mem_cons_of_mem _ hline, hcl⟩
      · simp only [splitLines, if_neg ha]
        cases hr : splitLines rest with
        | nil => rw [hr] at hline; cases hline
        | cons l1 ls =>
          rw [hr] at hline
          rcases List.mem_cons.mp hline with rfl | hline
          · exact ⟨a :: line, by simp, List.mem_cons_of_mem _ hcl⟩
          · exact ⟨line, List.mem_cons_of_mem _ hline, hcl⟩


theorem dropWhile_len_le (p : Char → Bool) :
    ∀ l : List Char, (l.dropWhile p).length ≤ l.length := by
  intro l
  induction l with
  | nil => simp
  | cons a rest ih =>
    rw [List.dropWhile_cons]
    by_cases h : p a = true
    · simp only [h, if_true]
      exact le_trans ih (by simp)
    · simp only [Bool.not_eq_true] at h
      rw [h]
      simp

theorem scanLine_accounts :
    ∀ (fuel : Nat) (l : List Char), l.length ≤ fuel →
    ∀ c ∈ l, jsSpace c = false →
      ∃ t ∈ scanLine fuel l, c ∈ t.value.data := by
  intro fuel
  induction fuel with
  | zero =>
    intro l hlen c hc _
    cases l with
    | nil => cases hc
    | cons a rest => simp at hlen
  | succ fuel ih =>
    intro l hlen c hc hsp
    cases l with
    | nil => cases hc
    | cons a rest =>
      have hrest : rest.length ≤ fuel := by
        simp only [List.length_cons] at hlen; omega
      rw [scanLine]
      unfold scanStep
      by_cases h1 : jsSpace a = true
      · rw [if_pos h1]
        rcases List.mem_cons.mp hc with rfl | hc2
        · rw [hsp] at h1; cases h1
        · exact ih rest hrest c hc2 hsp
      · rw [if_neg h1]
        by_cases h2 : a = '/' ∧ rest.head? = some '/'
        · rw [if_pos h2]
          exact ⟨_, List.mem_cons_self _ _, hc⟩
        · rw [if_neg h2]
          by_cases h3 : a = '"'
          · rw [if_pos h3]
            subst h3
            cases hS : strLitScan rest with
            | some q =>
              obtain ⟨content, rem⟩ := q
              simp only [hS]
              have he := strLitScan_eq rest content rem hS
              have hlen2 : rest.length = content.length + (rem.length + 1) := by
                rw [he]; simp
              have hremlen : rem.length ≤ fuel := by omega
              rcases List.mem_cons.mp hc with rfl | hc2
              · exact ⟨_, List.mem_cons_self _ _, List.mem_cons_self _ _⟩
              · rw [he] at hc2
                rcases List.mem_append.mp hc2 with hcont | hrem
                · exact ⟨_, List.mem_cons_self _ _,
                    List.mem_cons_of_mem _ (List.mem_append_left _ hcont)⟩
                · rcases List.mem_cons.mp hrem with rfl | hrem2
                  · exact ⟨_, List.mem_cons_self _ _,
                      List.mem_cons_of_mem _ (List.mem_append_right _ (by simp))⟩
                  · obtain ⟨t, ht, hct⟩ := ih rem hremlen c hrem2 hsp
                    exact ⟨t, List.mem_cons_of_mem _ ht, hct⟩
            | none =>
              simp only [hS]
              rcases List.mem_cons.mp hc with rfl | hc2
              · exact ⟨_, List.mem_cons_self _ _, by decide⟩
              · obtain ⟨t, ht, hct⟩ := ih rest hrest c hc2 hsp
                exact ⟨t, List.mem_cons_of_mem _ ht, hct⟩
          · rw [if_neg h3]
            by_cases h4 : opTest ((a :: rest).take 2) = true
            · rw [if_pos h4]
              rcases List.mem_cons.mp hc with rfl | hc2
              · exact ⟨_, List.mem_cons_self _ _, List.mem_cons_self _ _⟩
              · have hsplit : rest.take 1 ++ rest.drop 1 = rest :=
                  List.take_append_drop 1 rest
                rw [← hsplit] at hc2
                rcases List.mem_append.mp hc2 with htk | hdr
                · exact ⟨_, List.mem_cons_self _ _,
                    List.mem_cons_of_mem _ htk⟩
                · have hdlen : (rest.drop 1).length ≤ fuel := by
                    rw [List.length_drop]; omega
                  obtain ⟨t, ht, hct⟩ := ih (rest.drop 1) hdlen c hdr hsp
                  exact ⟨t, List.mem_cons_of_mem _ ht, hct⟩
            · rw [if_neg h4]
              by_cases h5 : opTest [a] = true
              · rw [if_pos h5]
                rcases List.mem_cons.mp hc with rfl | hc2
                · exact ⟨_, List.mem_cons_self _ _, List.mem_cons_self _ _⟩
                · obtain ⟨t, ht, hct⟩ := ih rest hrest c hc2 hsp
                  exact ⟨t, List.mem_cons_of_mem _ ht, hct⟩
              · rw [if_neg h5]
                by_cases h6 : sepChar a = true
                · rw [if_pos h6]
                  rcases List.mem_cons.mp hc with rfl | hc2
                  · exact ⟨_, List.mem_cons_self _ _, List.mem_cons_self _ _⟩
                  · obtain ⟨t, ht, hct⟩ := ih rest hrest c hc2 hsp
                    exact ⟨t, List.mem_cons_of_mem _ ht, hct⟩
                · rw [if_neg h6]
                  by_cases h7 : a = '('
                  · rw [if_pos h7]
                    rcases List.mem_cons.mp hc with rfl | hc2
                    · exact ⟨_, List.mem_cons_self _ _, List.mem_cons_self _ _⟩
                    · obtain ⟨t, ht, hct⟩ := ih rest hrest c hc2 hsp
                      exact ⟨t, List.mem_cons_of_mem _ ht, hct⟩
                  · rw [if_neg h7]
                    by_cases h8 : a = ')'
                    · rw [if_pos h8]
                      rcases List.mem_cons.mp hc with rfl | hc2
                      · exact ⟨_, List.mem_cons_self _ _, List.mem_cons_self _ _⟩
                      · obtain ⟨t, ht, hct⟩ := ih rest hrest c hc2 hsp
                        exact ⟨t, List.mem_cons_of_mem _ ht, hct⟩
                    · rw [if_neg h8]
                      by_cases h9 : a = '\x7b'
                      · rw [if_pos h9]
                        rcases List.mem_cons.mp hc with rfl | hc2
                        · exact ⟨_, List.mem_cons_self _ _, List.mem_cons_self _ _⟩
                        · obtain ⟨t, ht, hct⟩ := ih rest hrest c hc2 hsp
                          exact ⟨t, List.mem_cons_of_mem _ ht, hct⟩
                      · rw [if_neg h9]
                        by_cases h10 : a = '\x7d'
                        · rw [if_pos h10]
                          rcases List.mem_cons.mp hc with rfl | hc2
                          · exact ⟨_, List.mem_cons_self _ _, List.mem_cons_self _ _⟩
                          · obtain ⟨t, ht, hct⟩ := ih rest hrest c hc2 hsp
                            exact ⟨t, List.mem_cons_of_mem _ ht, hct⟩
                        · rw [if_neg h10]
                          by_cases h11 : (a :: rest).takeWhile wordChar ≠ []
                          · rw [if_pos h11]
                            have hw : wordChar a = true := by
                              by_contra hw
                              simp only [Bool.not_eq_true] at hw
                              apply h11
                              rw [List.takeWhile_cons, hw]
                              simp
                            have htw : (a :: rest).takeWhile wordChar =
                                a :: rest.takeWhile wordChar := by
                              rw [List.takeWhile_cons, hw]
                              simp
                            have hdw : (a :: rest).dropWhile wordChar =
                                rest.dropWhile wordChar := by
                              rw [List.dropWhile_cons, hw]
                              simp
                            rcases List.mem_cons.mp hc with rfl | hc2
                            · refine ⟨_, List.mem_cons_self _ _, ?_⟩
                              rw [classifyLexeme_value, htw]
                              exact List.mem_cons_self _ _
                            · have hsplit : rest.takeWhile wordChar ++
                                  rest.dropWhile wordChar = rest :=
                                List.takeWhile_append_dropWhile wordChar rest
                              rw [← hsplit] at hc2
                              rcases List.mem_append.mp hc2 with htk | hdr
                              · refine ⟨_, List.mem_cons_self _ _, ?_⟩
                                rw [classifyLexeme_value, htw]
                                exact List.mem_cons_of_mem _ htk
                              · have hdlen :
                                    ((a :: rest).dropWhile wordChar).length ≤ fuel := by
                                  rw [hdw]
                                  exact le_trans (dropWhile_len_le _ rest) hrest
                                obtain ⟨t, ht, hct⟩ := ih _ hdlen c
                                  (by rw [hdw]; exact hdr) hsp
                                exact ⟨t, List.mem_cons_of_mem _ ht, hct⟩
                          · rw [if_neg h11]
                            rcases List.mem_cons.mp hc with rfl | hc2
                            · exact ⟨_, List.mem_cons_self _ _, List.mem_cons_self _ _⟩
                            · obtain ⟨t, ht, hct⟩ := ih rest hrest c hc2 hsp
                              exact ⟨t, List.mem_cons_of_mem _ ht, hct⟩


theorem lineTokens_accounts (line : List Char) (c : Char) (hc : c ∈ line)
    (hsp : jsSpace c = false) : ∃ t ∈ lineTokens line, c ∈ t.value.data := by
  unfold lineTokens
  by_cases hp : preprocLine line = true
  · rw [if_pos hp]
    exact ⟨_, List.mem_cons_self _ _, jsTrim_mem line c hc hsp⟩
  · rw [if_neg hp]
    exact scanLine_accounts line.length line (le_refl _) c hc hsp

/-- C9: `tokenize` is a total function of its input text, and every
non-whitespace character of the input occurs in the value of some produced
token: block-comment characters in their COMMENT token, preprocessor-line
characters in their PREPROCESSOR token, and every other character through
the per-line scanner, whose every iteration either skips a whitespace
character or emits a token holding exactly the characters it consumes —
unrecognized characters as UNDEFINED tokens, never dropped. -/
theorem c9_tokenize_accounts_nonspace (input : String) (c : Char)
    (hmem : c ∈ input.data) (hsp : jsSpace c = false) :
    ∃ t ∈ tokenize input, c ∈ t.value.data := by
  simp only [tokenize]
  rcases stripBlockComments_accounts input.data.length input.data c hmem with
    ⟨t, ht, hct⟩ | h
  · exact ⟨t, List.mem_append_left _ ht, hct⟩
  · have hnl : c ≠ '\n' := fun e => by rw [e] at hsp; simp [jsSpace] at hsp
    obtain ⟨line, hline, hcl⟩ := splitLines_mem _ c h hnl
    obtain ⟨t, ht, hct⟩ := lineTokens_accounts line c hcl hsp
    refine ⟨t, List.mem_append_right _ ?_, hct⟩
    rw [List.mem_flatten]
    exact ⟨lineTokens line, List.mem_map_of_mem _ hline, ht⟩

/-- C9 (witness): the character `x` of a concrete program line is not
whitespace and ends up in a token's value. -/
theorem c9_tokenize_accounts_nonspace_witness :
    ('x' ∈ ("int x = 1; /* note */ @" : String).data ∧
      jsSpace 'x' = false) ∧
    ∃ t ∈ tokenize "int x = 1; /* note */ @", 'x' ∈ t.value.data :=
  ⟨⟨by decide, by decide⟩,
    c9_tokenize_accounts_nonspace "int x = 1; /* note */ @" 'x'
      (by decide) (by decide)⟩

end Lexer

namespace Parse

theorem programLoop_program :
    ∀ (fuel : Nat) (tokens : List Token) (cur : Nat) (body : List Node)
      (res : Node), programLoop fuel tokens cur body = some res →
      ∃ b, res = Node.program b := by
  intro fuel
  induction fuel with
  | zero => intro tokens cur body res h; simp [programLoop] at h
  | succ fuel ih =>
    intro tokens cur body res h
    rw [programLoop] at h
    cases hT : tokens[cur]? with
    | none =>
      simp only [hT] at h
      exact ⟨body, (Option.some.inj h).symm⟩
    | some token =>
      simp only [hT] at h
      by_cases h1 : token.type = "COMMENT"
      · rw [if_pos h1] at h; exact ih _ _ _ _ h
      · rw [if_neg h1] at h
        by_cases h2 : token.type = "PREPROCESSOR"
        · rw [if_pos h2] at h; exact ih _ _ _ _ h
        · rw [if_neg h2] at h
          by_cases h3 : isTypeSpecifier token = true
          · rw [if_pos h3] at h
            cases hF : parseFunctionDefinition fuel tokens cur with
            | none => rw [hF] at h; cases h
            | some p =>
              obtain ⟨fn, cur2⟩ := p
              rw [hF] at h
              exact ih _ _ _ _ h
          · rw [if_neg h3] at h; exact ih _ _ _ _ h

/-- C2 (counterexample): on the token sequence of `int main ( ) \x7b` — a
function definition missing its closing brace — `parse` returns a Program
tree, not a distinct parse-error value, and the compound-statement error
object sits embedded in the function node's body slot. -/
theorem c2_missing_brace_counterexample :
    parse 32 c2Tokens = some c2Result := by rfl

/-- C2 (amended): whenever `parse` returns (the fuel models the JS
parser's non-terminating runs), it returns a Program node — there is no
distinct parse-error return value — and failures surface as error objects
embedded inside the tree, as on the missing-brace example, which yields a
Program containing a function declaration whose body is the
compound-statement error object. -/
theorem c2_parse_returns_program_with_embedded_errors_amended :
    (∀ (fuel : Nat) (tokens : List Token) (res : Node),
        parse fuel tokens = some res → ∃ b, res = Node.program b) ∧
    parse 32 c2Tokens = some c2Result :=
  ⟨fun fuel tokens res h => programLoop_program fuel tokens 0 [] res h,
    by rfl⟩

/-- C2 (witness): the missing-brace tokens instantiate the amended
theorem's universal half. -/
theorem c2_parse_returns_program_with_embedded_errors_amended_witness :
    parse 32 c2Tokens = some c2Result ∧ ∃ b, c2Result = Node.program b :=
  ⟨by rfl,
    c2_parse_returns_program_with_embedded_errors_amended.1 32 c2Tokens
      c2Result (by rfl)⟩

end Parse

end EduCompiler
